import Mathlib

/-!
# FanGuard: adaptive sampling rate and windowed RMS pipeline

Shallow embedding of `src/fan-guard/fft-and-adaptive-sampling.cpp`.

Modelling conventions.
* A C `float` is an exact rational (`ℚ`): rounding, infinities and NaN are not modelled.
* A C `int` is an integer (`ℤ`); `/` and `%` on `int` are `Int.tdiv` and `Int.tmod`
  (truncation toward zero).  The constants of the firmware keep every intermediate value
  small, so neither the 16-bit loop counter nor a 32-bit product wraps.
* The module globals are the fields of `State`; every function of the source becomes a
  function `State → State` (plus a returned value where the source returns one).
* Calls that leave the module (sensor, clock, classifier, spectral transform, `sqrtf`,
  FreeRTOS) are the fields of `Platform`; their observable effects are appended to
  `State.trace` in program order.
-/

namespace FanGuard

/-- Compile-time constants that the source takes from the header
`fft-and-adaptive-sampling.h`, which is not part of the sources at hand.  They are
parameters of the whole development.  `INIT_SAMPLE_RATE` dimensions the arrays
`samples_real` and `samples_imag`, hence it is a natural number. -/
structure Config where
  INIT_SAMPLE_RATE : ℕ
  SESSION_DURATION_SEC : ℤ
  FFT_SAMPLE_RATE : ℤ
  NOISE_THRESHOLD : ℚ

/-- Modelled from the spec: the macro `NYQUIST_MULTIPLIER` is defined in the missing header;
the spec (section 4.2) and the comment above `fft_adjust_sampling_rate` give it as the
safety factor 2.5. -/
def NYQUIST_MULTIPLIER : ℚ := 5 / 2

/-- The status `EI_IMPULSE_OK` of the Edge Impulse SDK enumeration `EI_IMPULSE_ERROR`. -/
def EI_IMPULSE_OK : ℤ := 0

/-- Sensor reading `xyzFloat` as returned by `getGValues`. -/
structure xyzFloat where
  x : ℚ
  y : ℚ
  z : ℚ

/-- A pointer to `float` as the module uses one: the null pointer, or the address of the
array `rms_array` local to `fft_sampling_task`. -/
inductive float_ptr where
  | null : float_ptr
  | rms_array : float_ptr
deriving DecidableEq

/-- The record type `data_to_send_t` of the missing header `communication.h`, with the
three members the source uses.  Lines 243 and 264 assign `{0}` and the array `rms_array`
to the member `rms_array`, so that member is a pointer to `float`: a record does not hold
an RMS vector, it holds the address of one. -/
structure data_to_send_t where
  anomaly : Bool
  time_stamp : ℕ
  rms_array : float_ptr
deriving DecidableEq

/-- Observable calls into the environment, in program order.  `xQueueSend` carries the
record that is copied into the queue and, beside it, what the pointer of that record
refers to at the time of the call (`none` for the null pointer); the queue itself receives
the record only. -/
inductive Event where
  | getGValues : Event
  | light_sleep (duration : ℤ) : Event
  | xQueueSend (rms_data : data_to_send_t) (pointee : Option (ℚ × ℚ × ℚ)) : Event
  | xTaskCreatePinnedToCore : Event
  | vTaskDelayUntil (xFrequency : ℤ) : Event
  | vTaskDelete : Event
deriving DecidableEq

/-- The environment of the module: everything the source calls but does not define.
`getGValues k` is the k-th reading delivered by the accelerometer, `millis k` the clock
value read while the k-th reading is the latest one. -/
structure Platform where
  getGValues : ℕ → xyzFloat
  millis : ℕ → ℕ
  sqrtf : ℚ → ℚ
  run_classifier : ℚ × ℚ × ℚ → ℤ × (ℕ → ℚ)
  fft_analysis : (ℕ → ℚ) × (ℕ → ℚ) → (ℕ → ℚ) × (ℕ → ℚ)
  pdMS_TO_TICKS : ℤ → ℤ

/-- The module globals (lines 8-33 of the source), the flag `sending_window` of
`communication.h`, the array `rms_array` local to `fft_sampling_task` (the only local
whose address leaves the task), and two ghost fields: `reads` counts the sensor
acquisitions made so far and `trace` lists the environment calls made so far. -/
structure State where
  anomaly_detected : Bool
  anomaly_sent : Bool
  anomaly : data_to_send_t
  fft_init_complete : Bool
  g_sampling_frequency : ℤ
  samples_real : ℕ → ℚ
  samples_imag : ℕ → ℚ
  g_window_size : ℤ
  num_of_samples : ℤ
  session_sum_sq : ℚ × ℚ × ℚ
  features : ℚ × ℚ × ℚ
  sending_window : Bool
  rms_array : ℚ × ℚ × ℚ
  reads : ℕ
  trace : List Event

/-- The initial values of the globals and of `rms_array` (their initialisers in the
source). -/
def State.initial (c : Config) : State where
  anomaly_detected := false
  anomaly_sent := false
  anomaly := { anomaly := false, time_stamp := 0, rms_array := float_ptr.null }
  fft_init_complete := false
  g_sampling_frequency := c.INIT_SAMPLE_RATE
  samples_real := fun _ => 0
  samples_imag := fun _ => 0
  g_window_size := (c.INIT_SAMPLE_RATE : ℤ) * c.SESSION_DURATION_SEC
  num_of_samples := 0
  session_sum_sq := (0, 0, 0)
  features := (0, 0, 0)
  sending_window := false
  rms_array := (0, 0, 0)
  reads := 0
  trace := []

/-- The conversion `(int)x` of a floating-point value: truncation toward zero. -/
def float_to_int (x : ℚ) : ℤ := if 0 ≤ x then ⌊x⌋ else ⌈x⌉

/-- What a pointer refers to in state `s`. -/
def deref (s : State) : float_ptr → Option (ℚ × ℚ × ℚ)
  | float_ptr.null => none
  | float_ptr.rms_array => some s.rms_array

/-- Source `send_data`: offers the record to the outbound queue with a zero timeout. -/
def send_data (rms_data : data_to_send_t) (s : State) : State :=
  { s with trace := s.trace ++ [Event.xQueueSend rms_data (deref s rms_data.rms_array)] }

/-- Source `send_anomaly_task`. -/
def send_anomaly_task (s : State) : State :=
  let s1 :=
    if s.anomaly_detected && !s.anomaly_sent then
      { send_data s.anomaly s with anomaly_sent := true }
    else s
  { s1 with trace := s1.trace ++ [Event.vTaskDelete] }

/-- Source `read_sample`: one acquisition; the second output is the sensor z axis and the
third the sensor y axis. -/
def read_sample (p : Platform) (s : State) : (ℚ × ℚ × ℚ) × State :=
  let values := p.getGValues s.reads
  ((values.x, values.z, values.y),
    { s with reads := s.reads + 1, trace := s.trace ++ [Event.getGValues] })

/-- Source `light_sleep`. -/
def light_sleep (duration : ℤ) (s : State) : State :=
  { s with trace := s.trace ++ [Event.light_sleep duration] }

/-- Source `anomaly_detection`: stores the features, runs the classifier and applies the
decision rule. -/
def anomaly_detection (p : Platform) (rms_x rms_y rms_z : ℚ) (s : State) : Bool × State :=
  let s1 := { s with features := (rms_x, rms_y, rms_z) }
  let result := p.run_classifier s1.features
  let res := result.1
  let classification := result.2
  if res ≠ EI_IMPULSE_OK then (false, s1)
  else if classification 0 > 1 / 2 then (true, s1)
  else (false, s1)

/-- Source `fft_perform_analysis`: windowing, forward transform and magnitude conversion
of the ArduinoFFT instance bound to the two sample buffers. -/
def fft_perform_analysis (p : Platform) (s : State) : State :=
  let r := p.fft_analysis (s.samples_real, s.samples_imag)
  { s with samples_real := r.1, samples_imag := r.2 }

/-- The test of line 143 of the source: bin `i` is a strict local maximum above the noise
floor. -/
def is_peak (c : Config) (samples_real : ℕ → ℚ) (i : ℕ) : Prop :=
  samples_real i > samples_real (i - 1) ∧ samples_real i > samples_real (i + 1) ∧
    samples_real i > c.NOISE_THRESHOLD

instance (c : Config) (samples_real : ℕ → ℚ) (i : ℕ) : Decidable (is_peak c samples_real i) := by
  unfold is_peak
  infer_instance

/-- One iteration of the loop of `fft_get_max_frequency` (lines 142-149). -/
def max_frequency_step (c : Config) (s : State) (maxFrequency : ℚ) (i : ℕ) : ℚ :=
  if is_peak c s.samples_real i then
    let currentFreq : ℚ := ((Int.tdiv ((i : ℤ) * s.g_sampling_frequency) c.INIT_SAMPLE_RATE : ℤ) : ℚ)
    if currentFreq > maxFrequency then currentFreq else maxFrequency
  else maxFrequency

/-- Source `fft_get_max_frequency`: the loop runs over `i = 1, ..., (INIT_SAMPLE_RATE >> 1) - 1`. -/
def fft_get_max_frequency (c : Config) (s : State) : ℚ :=
  (List.range' 1 ((c.INIT_SAMPLE_RATE >>> 1) - 1)).foldl (max_frequency_step c s) (-1)

/-- Source `fft_sample_signal`: fills `samples_real` with the sum of the three axes. -/
def fft_sample_signal (c : Config) (p : Platform) (s : State) : State :=
  (List.range c.INIT_SAMPLE_RATE).foldl
    (fun st i =>
      let (sample, st1) := read_sample p st
      let st2 :=
        { st1 with samples_real := Function.update st1.samples_real i (sample.1 + sample.2.1 + sample.2.2) }
      light_sleep (Int.tdiv 1000 st2.g_sampling_frequency) st2)
    s

/-- Source `fft_adjust_sampling_rate`. -/
def fft_adjust_sampling_rate (c : Config) (max_freq : ℚ) (s : State) : State :=
  let new_rate : ℤ := float_to_int (NYQUIST_MULTIPLIER * max_freq)
  let new_rate : ℤ := if new_rate < 1 then Int.tdiv c.INIT_SAMPLE_RATE 2 else new_rate
  { s with g_sampling_frequency := if (c.INIT_SAMPLE_RATE : ℤ) > new_rate then new_rate else c.INIT_SAMPLE_RATE }

/-- Lines 190-195 of `fft_init`: acquisition at the calibration rate, spectral analysis,
and the rate set back to `INIT_SAMPLE_RATE` for the peak search. -/
def fft_init_analysis (c : Config) (p : Platform) (s : State) : State :=
  let s1 := { s with g_sampling_frequency := c.FFT_SAMPLE_RATE }
  let s2 := fft_sample_signal c p s1
  let s3 := fft_perform_analysis p s2
  { s3 with g_sampling_frequency := c.INIT_SAMPLE_RATE }

/-- Source `fft_init`. -/
def fft_init (c : Config) (p : Platform) (s : State) : State :=
  if !s.fft_init_complete then
    let s4 := fft_init_analysis c p s
    let max_freq := fft_get_max_frequency c s4
    let s5 := fft_adjust_sampling_rate c max_freq s4
    let s6 := { s5 with g_window_size := s5.g_sampling_frequency * c.SESSION_DURATION_SEC }
    { s6 with fft_init_complete := true }
  else s

/-- The body of the `if` of lines 257-289 of `fft_sampling_task`: writes the RMS vector
into `rms_array`, stores the address of `rms_array` and the clock value in the record,
evaluates the RMS vector, publishes the record, starts the transmission task when it is
not yet running, and resets the accumulator. -/
def flush_window (p : Platform) (s : State) : State :=
  let inv_window : ℚ := 1 / (s.g_window_size : ℚ)
  let s0 :=
    { s with
      rms_array :=
        (p.sqrtf (s.session_sum_sq.1 * inv_window), p.sqrtf (s.session_sum_sq.2.1 * inv_window),
          p.sqrtf (s.session_sum_sq.2.2 * inv_window)) }
  let data_to_send : data_to_send_t :=
    { anomaly := false, time_stamp := p.millis s0.reads, rms_array := float_ptr.rms_array }
  let evaluation := anomaly_detection p s0.rms_array.1 s0.rms_array.2.1 s0.rms_array.2.2 s0
  let detected := evaluation.1
  let s1 := evaluation.2
  let data_to_send : data_to_send_t :=
    if detected then { data_to_send with anomaly := true } else data_to_send
  let s2 := if detected then { s1 with anomaly_detected := true, anomaly := data_to_send } else s1
  let s3 := send_data data_to_send s2
  let s4 :=
    if !s3.sending_window then
      { s3 with sending_window := true, trace := s3.trace ++ [Event.xTaskCreatePinnedToCore] }
    else s3
  { s4 with session_sum_sq := (0, 0, 0), num_of_samples := 0 }

/-- The accumulation of lines 246-254: one acquisition, each axis squared and added. -/
def accumulate (p : Platform) (s : State) : State :=
  let (sample, s1) := read_sample p s
  { s1 with
    session_sum_sq :=
      (s1.session_sum_sq.1 + sample.1 * sample.1, s1.session_sum_sq.2.1 + sample.2.1 * sample.2.1,
        s1.session_sum_sq.2.2 + sample.2.2 * sample.2.2) }

/-- The test of line 257: a flush happens in this iteration. -/
def flush_due (s : State) : Prop := Int.tmod s.num_of_samples s.g_window_size = 0

instance (s : State) : Decidable (flush_due s) := by
  unfold flush_due
  infer_instance

/-- The wait of lines 294-302, after the increment of line 291. -/
def inter_sample_wait (xFrequency : ℤ) (s : State) : State :=
  if s.sending_window then
    { s with trace := s.trace ++ [Event.vTaskDelayUntil xFrequency] }
  else light_sleep (Int.tdiv 1000 s.g_sampling_frequency) s

/-- One iteration of the `while(1)` loop of `fft_sampling_task` (lines 237-303);
`xFrequency` is the local constant computed on entry of the task. -/
def loop_body (p : Platform) (xFrequency : ℤ) (s : State) : State :=
  let s1 := accumulate p s
  let s2 := if flush_due s1 then flush_window p s1 else s1
  let s3 := { s2 with num_of_samples := s2.num_of_samples + 1 }
  inter_sample_wait xFrequency s3

/-- The first `n` iterations of the steady loop. -/
def steady_loop (p : Platform) (xFrequency : ℤ) (n : ℕ) (s : State) : State :=
  (loop_body p xFrequency)^[n] s

/-- Source `fft_sampling_task`, observed after `n` iterations of its loop. -/
def fft_sampling_task (c : Config) (p : Platform) (n : ℕ) (s : State) : State :=
  let s0 := { s with rms_array := (0, 0, 0) }
  let xFrequency := p.pdMS_TO_TICKS (Int.tdiv 1000 s0.g_sampling_frequency)
  let s1 := if !s0.fft_init_complete then fft_init c p s0 else s0
  steady_loop p xFrequency n s1

/-- The records offered to the outbound queue so far, oldest first. -/
def sent_records (s : State) : List data_to_send_t :=
  s.trace.filterMap (fun e => match e with
    | Event.xQueueSend r _ => some r
    | _ => none)

/-- The RMS vectors that the records offered to the queue referred to when they were
offered, oldest first. -/
def sent_rms (s : State) : List (Option (ℚ × ℚ × ℚ)) :=
  s.trace.filterMap (fun e => match e with
    | Event.xQueueSend _ pointee => some pointee
    | _ => none)

/-- Number of records offered to the outbound queue so far. -/
def queue_sends (s : State) : ℕ := (sent_records s).length

/-- The globals that the calibration does not write keep their values from `s` to `t`, and
no record is offered to the queue in between. -/
def steady_fields_eq (s t : State) : Prop :=
  t.anomaly_detected = s.anomaly_detected ∧ t.anomaly_sent = s.anomaly_sent ∧
    t.anomaly = s.anomaly ∧ t.num_of_samples = s.num_of_samples ∧
    t.session_sum_sq = s.session_sum_sq ∧ t.features = s.features ∧
    t.sending_window = s.sending_window ∧ sent_records t = sent_records s

instance (s t : State) : Decidable (steady_fields_eq s t) := by
  unfold steady_fields_eq
  infer_instance

/-- The session configuration relation of the spec (section 3, SessionConfig). -/
def session_config_ok (c : Config) (s : State) : Prop :=
  s.g_window_size = s.g_sampling_frequency * c.SESSION_DURATION_SEC ∧
    s.g_sampling_frequency ≤ c.INIT_SAMPLE_RATE

instance (c : Config) (s : State) : Decidable (session_config_ok c s) := by
  unfold session_config_ok
  infer_instance

/-- The constants of the example of the spec (section 8): 100 Hz, 30 s sessions. -/
def example_config : Config where
  INIT_SAMPLE_RATE := 100
  SESSION_DURATION_SEC := 30
  FFT_SAMPLE_RATE := 100
  NOISE_THRESHOLD := 1 / 2

/-- A square root on the rationals for the example environment: exact on squares of
rationals, rounded down componentwise elsewhere. -/
def example_sqrt (x : ℚ) : ℚ := (Nat.sqrt x.num.toNat : ℚ) / (Nat.sqrt x.den : ℚ)

/-- An environment for the example of the spec: the spectral transform reports a single
peak in bin 10, the sensor rests at 1 g on its z axis, and the classifier succeeds with
probability 0 for every label. -/
def example_platform : Platform where
  getGValues := fun _ => { x := 0, y := 0, z := 1 }
  millis := fun k => 10 * k
  sqrtf := example_sqrt
  run_classifier := fun _ => (EI_IMPULSE_OK, fun _ => 0)
  fft_analysis := fun _ => (fun i => if i = 10 then 1 else 0, fun _ => 0)
  pdMS_TO_TICKS := fun ms => ms

/-- The example constants with sessions of one second. -/
def short_session_config : Config :=
  { example_config with SESSION_DURATION_SEC := 1 }

/-- The example environment (a constant signal of 1 g on the sensor z axis) with an
arbitrary square root routine `f`. -/
def constant_signal_platform (f : ℚ → ℚ) : Platform :=
  { example_platform with sqrtf := f }

/-- A state whose magnitude buffer has two qualifying bins: bin 5 with magnitude 9 and
bin 10 with magnitude 1. -/
def two_peak_state : State :=
  { State.initial example_config with
    samples_real := fun i => if i = 5 then 9 else if i = 10 then 1 else 0 }

/-- The array read `features[k]` of `raw_feature_get_data`.  The array has three elements;
what lies behind it in memory is not part of the module, so the value found by a read past
the end is the parameter `beyond`. -/
def features_at (features : ℚ × ℚ × ℚ) (beyond : ℕ → ℚ) : ℕ → ℚ
  | 0 => features.1
  | 1 => features.2.1
  | 2 => features.2.2
  | k + 3 => beyond k

/-- Source `raw_feature_get_data`: copies `length` elements starting at `offset` into the
output buffer and returns 0.  The output buffer is a function from indices to values; the
result is the returned status together with the buffer after the call. -/
def raw_feature_get_data (s : State) (beyond : ℕ → ℚ) (offset length : ℕ) (out_ptr : ℕ → ℚ) :
    ℤ × (ℕ → ℚ) :=
  (0, (List.range length).foldl
    (fun out i => Function.update out i (features_at s.features beyond (offset + i))) out_ptr)

/-- The RMS vector that a flush computes from the accumulator (lines 259-263). -/
def window_rms (p : Platform) (s : State) : ℚ × ℚ × ℚ :=
  (p.sqrtf (s.session_sum_sq.1 * (1 / (s.g_window_size : ℚ))),
    p.sqrtf (s.session_sum_sq.2.1 * (1 / (s.g_window_size : ℚ))),
    p.sqrtf (s.session_sum_sq.2.2 * (1 / (s.g_window_size : ℚ))))

/-- The record of a window: the verdict of `anomaly_detection` on its RMS vector, the
clock value, and the address of `rms_array`. -/
def window_record (p : Platform) (s : State) : data_to_send_t :=
  { anomaly :=
      (anomaly_detection p (window_rms p s).1 (window_rms p s).2.1 (window_rms p s).2.2
        { s with rms_array := window_rms p s }).1
    time_stamp := p.millis s.reads
    rms_array := float_ptr.rms_array }

/-- The records offered to the outbound queue so far, each with the RMS vector it referred
to when it was offered, oldest first. -/
def offered (s : State) : List (data_to_send_t × Option (ℚ × ℚ × ℚ)) :=
  s.trace.filterMap (fun e => match e with
    | Event.xQueueSend r pointee => some (r, pointee)
    | _ => none)

/-- The sample that `read_sample` makes of the k-th sensor reading. -/
def sample_of (p : Platform) (k : ℕ) : ℚ × ℚ × ℚ :=
  ((p.getGValues k).x, (p.getGValues k).z, (p.getGValues k).y)

/-- The sums of squares, per axis, of the `count` samples made of the sensor readings
`first, ..., first + count - 1`. -/
def sum_sq (p : Platform) (first : ℕ) : ℕ → ℚ × ℚ × ℚ
  | 0 => (0, 0, 0)
  | count + 1 =>
    ((sum_sq p first count).1 + (sample_of p (first + count)).1 * (sample_of p (first + count)).1,
      (sum_sq p first count).2.1 +
        (sample_of p (first + count)).2.1 * (sample_of p (first + count)).2.1,
      (sum_sq p first count).2.2 +
        (sample_of p (first + count)).2.2 * (sample_of p (first + count)).2.2)

/-- The RMS vector of the spec (section 4.3): `rms[i] = sqrt(sumSquares[i] / windowSize)`,
with the division written as the source writes it. -/
def rms_of (p : Platform) (sums : ℚ × ℚ × ℚ) (window_size : ℤ) : ℚ × ℚ × ℚ :=
  (p.sqrtf (sums.1 * (1 / (window_size : ℚ))), p.sqrtf (sums.2.1 * (1 / (window_size : ℚ))),
    p.sqrtf (sums.2.2 * (1 / (window_size : ℚ))))

/-- What the spec expects the sampler to offer for the window made of the `count` sensor
readings `first, ..., first + count - 1`, with window size `window_size`: a record with the
verdict of `anomaly_detection` on the RMS vector of those samples, the clock value read
after the last of them and the address of `rms_array`, which at that time holds that RMS
vector.  The verdict does not depend on the state `s`. -/
def window_offer (p : Platform) (s : State) (window_size : ℤ) (first count : ℕ) :
    data_to_send_t × Option (ℚ × ℚ × ℚ) :=
  ({ anomaly :=
        (anomaly_detection p (rms_of p (sum_sq p first count) window_size).1
          (rms_of p (sum_sq p first count) window_size).2.1
          (rms_of p (sum_sq p first count) window_size).2.2 s).1
     time_stamp := p.millis (first + count)
     rms_array := float_ptr.rms_array },
    some (rms_of p (sum_sq p first count) window_size))

/-- The records that the first `n` iterations of the steady loop started in `s` hand to
`send_data`, listed in acquisition order: iteration `i` contributes the record of its
window when its flush is due, and nothing otherwise. -/
def published_records (p : Platform) (xFrequency : ℤ) (n : ℕ) (s : State) : List data_to_send_t :=
  (List.range n).filterMap (fun i =>
    if flush_due (accumulate p (steady_loop p xFrequency i s)) then
      some (window_record p (accumulate p (steady_loop p xFrequency i s)))
    else none)

/-- Number of creations of the transmission task so far. -/
def task_creates (s : State) : ℕ := s.trace.count Event.xTaskCreatePinnedToCore

/-- Number of power-saving sleeps so far. -/
def light_sleeps (s : State) : ℕ :=
  s.trace.countP (fun e => match e with
    | Event.light_sleep _ => true
    | _ => false)

/-- The intervals of the precise periodic delays taken so far, oldest first. -/
def delay_intervals (s : State) : List ℤ :=
  s.trace.filterMap (fun e => match e with
    | Event.vTaskDelayUntil xFrequency => some xFrequency
    | _ => none)

/-- An activation in a sequential interleaving of the sampler with the anomaly sender: one
iteration of the steady loop, or one run of `send_anomaly_task`. -/
inductive Activation where
  | loop_iteration : Activation
  | anomaly_task : Activation
deriving DecidableEq

/-- Runs one activation. -/
def run_activation (p : Platform) (xFrequency : ℤ) (a : Activation) (s : State) : State :=
  match a with
  | Activation.loop_iteration => loop_body p xFrequency s
  | Activation.anomaly_task => send_anomaly_task s

/-- Runs a schedule of activations from left to right. -/
def run_schedule (p : Platform) (xFrequency : ℤ) (schedule : List Activation) (s : State) :
    State :=
  schedule.foldl (fun st a => run_activation p xFrequency a st) s

/-- Number of records that the runs of `send_anomaly_task` in a schedule offer to the
queue: each run contributes the growth of the queue it causes. -/
def anomaly_deliveries (p : Platform) (xFrequency : ℤ) : List Activation → State → ℕ
  | [], _ => 0
  | Activation.loop_iteration :: rest, s =>
    anomaly_deliveries p xFrequency rest (loop_body p xFrequency s)
  | Activation.anomaly_task :: rest, s =>
    (queue_sends (send_anomaly_task s) - queue_sends s) +
      anomaly_deliveries p xFrequency rest (send_anomaly_task s)

/-- The example environment with a classifier that reports an anomaly for every window. -/
def alarm_platform : Platform :=
  { example_platform with run_classifier := fun _ => (EI_IMPULSE_OK, fun _ => 1) }

/-! ## Rate derivation -/

theorem float_to_int_of_nonneg {x : ℚ} (h : 0 ≤ x) : float_to_int x = ⌊x⌋ := by
  simp [float_to_int, h]

theorem float_to_int_lt_one {x : ℚ} (h : x < 1) : float_to_int x < 1 := by
  unfold float_to_int
  split_ifs with h0
  · exact Int.floor_lt.mpr (by exact_mod_cast h)
  · have : ⌈x⌉ ≤ 0 := Int.ceil_le.mpr (by push_cast; linarith)
    omega

theorem one_le_float_to_int {x : ℚ} (h : 1 ≤ x) : 1 ≤ float_to_int x := by
  rw [float_to_int_of_nonneg (by linarith)]
  exact Int.le_floor.mpr (by exact_mod_cast h)

theorem float_to_int_mono {x y : ℚ} (h : x ≤ y) : float_to_int x ≤ float_to_int y := by
  unfold float_to_int
  split_ifs with hx hy hy
  · exact Int.floor_mono h
  · exact absurd (le_trans hx h) hy
  · exact le_trans (Int.ceil_le.mpr (by push_cast; linarith)) (Int.floor_nonneg.mpr hy)
  · exact Int.ceil_mono h

/-- The rate that `fft_adjust_sampling_rate` stores, outside the fallback. -/
theorem adjust_rate_of_one_le (c : Config) (max_freq : ℚ) (s : State)
    (h : 1 ≤ NYQUIST_MULTIPLIER * max_freq) :
    (fft_adjust_sampling_rate c max_freq s).g_sampling_frequency =
      min ⌊NYQUIST_MULTIPLIER * max_freq⌋ (c.INIT_SAMPLE_RATE : ℤ) := by
  have h1 := one_le_float_to_int h
  have h2 := float_to_int_of_nonneg (le_trans zero_le_one h)
  have hn : ¬ float_to_int (NYQUIST_MULTIPLIER * max_freq) < 1 := by omega
  simp only [fft_adjust_sampling_rate, hn, if_false]
  rw [h2]
  split_ifs with hc
  · exact (min_eq_left (le_of_lt hc)).symm
  · exact (min_eq_right (by omega)).symm

/-- The rate that `fft_adjust_sampling_rate` stores in the fallback. -/
theorem adjust_rate_fallback (c : Config) (max_freq : ℚ) (s : State)
    (h : NYQUIST_MULTIPLIER * max_freq < 1) :
    (fft_adjust_sampling_rate c max_freq s).g_sampling_frequency =
      ((c.INIT_SAMPLE_RATE / 2 : ℕ) : ℤ) := by
  have h1 := float_to_int_lt_one h
  simp only [fft_adjust_sampling_rate, h1, if_true]
  have h3 : Int.tdiv (c.INIT_SAMPLE_RATE : ℤ) 2 = ((c.INIT_SAMPLE_RATE / 2 : ℕ) : ℤ) := by
    rw [Int.tdiv_eq_ediv (by omega) (by norm_num)]
    norm_cast
  rw [h3]
  split_ifs with hc
  · rfl
  · omega

theorem fft_init_of_incomplete (c : Config) (p : Platform) (s : State)
    (h : s.fft_init_complete = false) :
    (fft_init c p s).g_sampling_frequency =
        (fft_adjust_sampling_rate c (fft_get_max_frequency c (fft_init_analysis c p s))
          (fft_init_analysis c p s)).g_sampling_frequency ∧
      (fft_init c p s).g_window_size =
        (fft_init c p s).g_sampling_frequency * c.SESSION_DURATION_SEC := by
  simp [fft_init, h]

theorem adjust_rate_le_init (c : Config) (max_freq : ℚ) (s : State) :
    (fft_adjust_sampling_rate c max_freq s).g_sampling_frequency ≤ c.INIT_SAMPLE_RATE := by
  simp only [fft_adjust_sampling_rate]
  split_ifs <;> omega

/-- The calibration of the example: with 100 Hz, noise threshold 0.5 and a single spectral
peak in bin 10, `fft_init` ends with rate 25 and window size `25 * SESSION_DURATION_SEC`. -/
theorem example_calibration (c : Config) (p : Platform) (s : State)
    (hN : c.INIT_SAMPLE_RATE = 100) (hT : c.NOISE_THRESHOLD = 1 / 2)
    (hA : p.fft_analysis = example_platform.fft_analysis) (h : s.fft_init_complete = false) :
    fft_get_max_frequency c (fft_init_analysis c p s) = 10 ∧
      (fft_init c p s).g_sampling_frequency = 25 ∧
      (fft_init c p s).g_window_size = 25 * c.SESSION_DURATION_SEC := by
  have hmax : fft_get_max_frequency c (fft_init_analysis c p s) = 10 := by
    simp [fft_get_max_frequency, fft_init_analysis, fft_perform_analysis, example_platform,
      hN, hT, hA, List.range', max_frequency_step, is_peak]
    norm_num [Int.tdiv]
  obtain ⟨h1, h2⟩ := fft_init_of_incomplete c p s h
  have hrate : (fft_init c p s).g_sampling_frequency = 25 := by
    rw [h1, hmax, adjust_rate_of_one_le _ _ _ (by norm_num [NYQUIST_MULTIPLIER])]
    have : NYQUIST_MULTIPLIER * 10 = ((25 : ℤ) : ℚ) := by norm_num [NYQUIST_MULTIPLIER]
    rw [this, Int.floor_intCast, hN]
    rfl
  exact ⟨hmax, hrate, by rw [h2, hrate]⟩

/-- C1 (rate derivation value): for every peak frequency `max_freq` with
`2.5 * max_freq >= 1`, `fft_adjust_sampling_rate` stores the rate
`min (trunc (2.5 * max_freq)) INIT_SAMPLE_RATE`, and a calibration run of `fft_init` whose
peak search returns `max_freq` ends with that rate and with the window size
`rate * SESSION_DURATION_SEC`. -/
theorem C1_rate_derivation (c : Config) (max_freq : ℚ) (h : 1 ≤ (5 / 2 : ℚ) * max_freq) :
    (∀ s : State, (fft_adjust_sampling_rate c max_freq s).g_sampling_frequency =
        min ⌊(5 / 2 : ℚ) * max_freq⌋ (c.INIT_SAMPLE_RATE : ℤ)) ∧
      ∀ (p : Platform) (s : State), s.fft_init_complete = false →
        fft_get_max_frequency c (fft_init_analysis c p s) = max_freq →
        (fft_init c p s).g_sampling_frequency =
            min ⌊(5 / 2 : ℚ) * max_freq⌋ (c.INIT_SAMPLE_RATE : ℤ) ∧
          (fft_init c p s).g_window_size =
            min ⌊(5 / 2 : ℚ) * max_freq⌋ (c.INIT_SAMPLE_RATE : ℤ) * c.SESSION_DURATION_SEC := by
  have key : ∀ s : State, (fft_adjust_sampling_rate c max_freq s).g_sampling_frequency =
      min ⌊(5 / 2 : ℚ) * max_freq⌋ (c.INIT_SAMPLE_RATE : ℤ) := fun s =>
    adjust_rate_of_one_le c max_freq s h
  refine ⟨key, fun p s hs hm => ?_⟩
  obtain ⟨h1, h2⟩ := fft_init_of_incomplete c p s hs
  rw [hm, key] at h1
  exact ⟨h1, by rw [h2, h1]⟩

/-- C1 at the example of the spec: 100 Hz, 30 s and a 10 Hz peak give rate 25 and
window size 750. -/
theorem C1_rate_derivation_witness :
    (1 : ℚ) ≤ 5 / 2 * 10 ∧
      (fft_adjust_sampling_rate example_config 10
        (State.initial example_config)).g_sampling_frequency = 25 ∧
      (fft_init example_config example_platform
        (State.initial example_config)).g_sampling_frequency = 25 ∧
      (fft_init example_config example_platform
        (State.initial example_config)).g_window_size = 750 := by
  have hfloor : min ⌊(5 / 2 : ℚ) * 10⌋ ((example_config.INIT_SAMPLE_RATE : ℕ) : ℤ) = 25 := by
    have : (5 / 2 : ℚ) * 10 = ((25 : ℤ) : ℚ) := by norm_num
    rw [this, Int.floor_intCast]
    simp [example_config]
  obtain ⟨h1, h2⟩ := C1_rate_derivation example_config 10 (by norm_num)
  obtain ⟨h3, h4⟩ := h2 example_platform (State.initial example_config) rfl
    (example_calibration example_config example_platform _ rfl rfl rfl rfl).1
  refine ⟨by norm_num, ?_, ?_, ?_⟩
  · rw [h1, hfloor]
  · rw [h3, hfloor]
  · rw [h4, hfloor]
    simp [example_config]

/-- C2 (rate fallback): for every `max_freq` with `max_freq <= 0` or `2.5 * max_freq < 1`,
`fft_adjust_sampling_rate` stores exactly `INIT_SAMPLE_RATE / 2` (integer division). -/
theorem C2_rate_fallback (c : Config) (max_freq : ℚ) (s : State)
    (h : max_freq ≤ 0 ∨ (5 / 2 : ℚ) * max_freq < 1) :
    (fft_adjust_sampling_rate c max_freq s).g_sampling_frequency =
      ((c.INIT_SAMPLE_RATE / 2 : ℕ) : ℤ) := by
  apply adjust_rate_fallback
  unfold NYQUIST_MULTIPLIER
  rcases h with h | h
  · linarith
  · exact h

/-- C2 at the no-peak sentinel: with 100 Hz the rate falls back to 50. -/
theorem C2_rate_fallback_witness :
    ((-1 : ℚ) ≤ 0 ∨ (5 / 2 : ℚ) * (-1) < 1) ∧
      (fft_adjust_sampling_rate example_config (-1)
        (State.initial example_config)).g_sampling_frequency = 50 := by
  refine ⟨Or.inl (by norm_num), ?_⟩
  rw [C2_rate_fallback example_config (-1) (State.initial example_config) (Or.inl (by norm_num))]
  simp [example_config]

/-- C3, as stated, fails: with 100 Hz the frequencies 0.25 <= 10 are both below the clamp,
yet 0.25 falls back to rate 50 while 10 gives rate 25. -/
theorem C3_rate_monotone_counterexample :
    (1 / 4 : ℚ) ≤ 10 ∧ (5 / 2 : ℚ) * 10 ≤ ((example_config.INIT_SAMPLE_RATE : ℕ) : ℚ) ∧
      ¬ (fft_adjust_sampling_rate example_config (1 / 4)
            (State.initial example_config)).g_sampling_frequency ≤
          (fft_adjust_sampling_rate example_config 10
            (State.initial example_config)).g_sampling_frequency := by
  have h1 : (fft_adjust_sampling_rate example_config (1 / 4)
      (State.initial example_config)).g_sampling_frequency = 50 := by
    rw [adjust_rate_fallback _ _ _ (by norm_num [NYQUIST_MULTIPLIER])]
    simp [example_config]
  have h2 : (fft_adjust_sampling_rate example_config 10
      (State.initial example_config)).g_sampling_frequency = 25 := by
    rw [adjust_rate_of_one_le _ _ _ (by norm_num [NYQUIST_MULTIPLIER])]
    have : NYQUIST_MULTIPLIER * 10 = ((25 : ℤ) : ℚ) := by norm_num [NYQUIST_MULTIPLIER]
    rw [this, Int.floor_intCast]
    simp [example_config]
  refine ⟨by norm_num, by norm_num [example_config], ?_⟩
  rw [h1, h2]
  norm_num

/-- C3 (rate monotonicity, amended): for all peak frequencies `f1 <= f2` outside the
fallback range (`2.5 * f1 >= 1`) for which clamping has not taken effect
(`2.5 * f2 <= INIT_SAMPLE_RATE`), the rate derived from `f1` is at most the rate derived
from `f2`. -/
theorem C3_rate_monotone (c : Config) (f1 f2 : ℚ) (s1 s2 : State) (h12 : f1 ≤ f2)
    (hlow : 1 ≤ (5 / 2 : ℚ) * f1) (hclamp : (5 / 2 : ℚ) * f2 ≤ (c.INIT_SAMPLE_RATE : ℚ)) :
    (fft_adjust_sampling_rate c f1 s1).g_sampling_frequency ≤
      (fft_adjust_sampling_rate c f2 s2).g_sampling_frequency := by
  have hhigh : 1 ≤ (5 / 2 : ℚ) * f2 := by linarith
  rw [adjust_rate_of_one_le c f1 s1 hlow, adjust_rate_of_one_le c f2 s2 hhigh]
  have hclamp2 := hclamp
  exact min_le_min (Int.floor_mono (by unfold NYQUIST_MULTIPLIER; linarith)) le_rfl

/-- C3 amended at 100 Hz: the frequencies 4 <= 10 give rates 10 <= 25. -/
theorem C3_rate_monotone_witness :
    (4 : ℚ) ≤ 10 ∧ (1 : ℚ) ≤ 5 / 2 * 4 ∧
      (5 / 2 : ℚ) * 10 ≤ ((example_config.INIT_SAMPLE_RATE : ℕ) : ℚ) ∧
      (fft_adjust_sampling_rate example_config 4
          (State.initial example_config)).g_sampling_frequency ≤
        (fft_adjust_sampling_rate example_config 10
          (State.initial example_config)).g_sampling_frequency :=
  ⟨by norm_num, by norm_num, by norm_num [example_config],
    C3_rate_monotone example_config 4 10 _ _ (by norm_num) (by norm_num)
      (by norm_num [example_config])⟩

/-- C4 (session configuration invariant): whatever the sensor delivers and the spectral
transform leaves in the buffer, after a calibration run of `fft_init` the configuration
satisfies `g_window_size == g_sampling_frequency * SESSION_DURATION_SEC` and
`g_sampling_frequency <= INIT_SAMPLE_RATE`; the initial configuration satisfies both
as well. -/
theorem C4_session_config_invariant (c : Config) (p : Platform) (s : State)
    (h : s.fft_init_complete = false) :
    session_config_ok c (fft_init c p s) ∧ session_config_ok c (State.initial c) := by
  obtain ⟨h1, h2⟩ := fft_init_of_incomplete c p s h
  refine ⟨⟨h2, ?_⟩, ⟨rfl, le_refl _⟩⟩
  rw [h1]
  exact adjust_rate_le_init c _ _

/-- C4 at the example configuration, calibrating from the initial state. -/
theorem C4_session_config_invariant_witness :
    (State.initial example_config).fft_init_complete = false ∧
      session_config_ok example_config
        (fft_init example_config example_platform (State.initial example_config)) ∧
      session_config_ok example_config (State.initial example_config) :=
  ⟨rfl, C4_session_config_invariant example_config example_platform
    (State.initial example_config) rfl⟩

/-! ## Peak search -/

theorem bin_frequency_nonneg (c : Config) (s : State) (hg : 0 ≤ s.g_sampling_frequency) (i : ℕ) :
    0 ≤ Int.tdiv ((i : ℤ) * s.g_sampling_frequency) c.INIT_SAMPLE_RATE := by
  have h1 : 0 ≤ (i : ℤ) * s.g_sampling_frequency := mul_nonneg (by omega) hg
  rw [Int.tdiv_eq_ediv h1 (Int.natCast_nonneg _)]
  exact Int.ediv_nonneg h1 (Int.natCast_nonneg _)

theorem bin_frequency_mono (c : Config) (s : State) (hg : 0 ≤ s.g_sampling_frequency) {i j : ℕ}
    (hij : i ≤ j) :
    Int.tdiv ((i : ℤ) * s.g_sampling_frequency) c.INIT_SAMPLE_RATE ≤
      Int.tdiv ((j : ℤ) * s.g_sampling_frequency) c.INIT_SAMPLE_RATE := by
  have h1 : 0 ≤ (i : ℤ) * s.g_sampling_frequency := mul_nonneg (by omega) hg
  have h2 : 0 ≤ (j : ℤ) * s.g_sampling_frequency := mul_nonneg (by omega) hg
  have h3 : (i : ℤ) * s.g_sampling_frequency ≤ (j : ℤ) * s.g_sampling_frequency :=
    mul_le_mul_of_nonneg_right (by exact_mod_cast hij) hg
  rw [Int.tdiv_eq_ediv h1 (Int.natCast_nonneg _), Int.tdiv_eq_ediv h2 (Int.natCast_nonneg _)]
  rcases Nat.eq_zero_or_pos c.INIT_SAMPLE_RATE with h0 | h0
  · simp [h0]
  · exact Int.ediv_le_ediv (by exact_mod_cast h0) h3

/-- Loop invariant of the peak search after the bins `1, ..., m`: either no bin qualified
and the result is still the sentinel, or the result is the frequency of the last
qualifying bin. -/
theorem peak_search_invariant (c : Config) (s : State) (hg : 0 ≤ s.g_sampling_frequency) (m : ℕ) :
    ((List.range' 1 m).foldl (max_frequency_step c s) (-1) = -1 ∧
        ∀ i, 1 ≤ i → i ≤ m → ¬ is_peak c s.samples_real i) ∨
      ∃ k, 1 ≤ k ∧ k ≤ m ∧ is_peak c s.samples_real k ∧
        (List.range' 1 m).foldl (max_frequency_step c s) (-1) =
          ((Int.tdiv ((k : ℤ) * s.g_sampling_frequency) c.INIT_SAMPLE_RATE : ℤ) : ℚ) ∧
        ∀ j, k < j → j ≤ m → ¬ is_peak c s.samples_real j := by
  induction m with
  | zero =>
    left
    exact ⟨rfl, fun i h1 h2 => by omega⟩
  | succ m ih =>
    rw [List.range'_concat, List.foldl_append]
    simp only [List.foldl_cons, List.foldl_nil, Nat.one_mul]
    by_cases hp : is_peak c s.samples_real (1 + m)
    · right
      refine ⟨1 + m, by omega, by omega, hp, ?_, fun j h1 h2 => by omega⟩
      have hnn := bin_frequency_nonneg c s hg (1 + m)
      rcases ih with ⟨hr, _⟩ | ⟨k, _, hk2, _, hr, _⟩
      · rw [hr]
        simp only [max_frequency_step, hp, if_true]
        rw [if_pos]
        have h0 : (0 : ℚ) ≤ _ := Int.cast_nonneg.mpr hnn
        exact lt_of_lt_of_le (by norm_num) h0
      · rw [hr]
        simp only [max_frequency_step, hp, if_true]
        have hmono := bin_frequency_mono c s hg (show k ≤ 1 + m by omega)
        split_ifs with hlt
        · rfl
        · exact le_antisymm (Int.cast_le.mpr hmono) (not_lt.mp hlt)
    · have hstep : ∀ acc, max_frequency_step c s acc (1 + m) = acc := fun acc => by
        simp [max_frequency_step, hp]
      rw [hstep]
      rcases ih with ⟨hr, hno⟩ | ⟨k, hk1, hk2, hk, hr, hlast⟩
      · left
        refine ⟨hr, fun i h1 h2 => ?_⟩
        rcases Nat.lt_or_ge i (m + 1) with h | h
        · exact hno i h1 (by omega)
        · have : i = 1 + m := by omega
          rw [this]
          exact hp
      · right
        refine ⟨k, hk1, by omega, hk, hr, fun j h1 h2 => ?_⟩
        rcases Nat.lt_or_ge j (m + 1) with h | h
        · exact hlast j h1 (by omega)
        · have : j = 1 + m := by omega
          rw [this]
          exact hp

/-- C5 (peak-search sentinel): for every magnitude buffer and every non-negative sampling
frequency, `fft_get_max_frequency` returns -1 if and only if no index `i` in `[1, N/2)`,
`N = INIT_SAMPLE_RATE`, satisfies `magnitude[i] > magnitude[i-1]`,
`magnitude[i] > magnitude[i+1]` and `magnitude[i] > NOISE_THRESHOLD`. -/
theorem C5_peak_search_sentinel (c : Config) (s : State) (hg : 0 ≤ s.g_sampling_frequency) :
    fft_get_max_frequency c s = -1 ↔
      ∀ i : ℕ, 1 ≤ i → i < c.INIT_SAMPLE_RATE / 2 →
        ¬ (s.samples_real i > s.samples_real (i - 1) ∧
            s.samples_real i > s.samples_real (i + 1) ∧
            s.samples_real i > c.NOISE_THRESHOLD) := by
  have hshift : c.INIT_SAMPLE_RATE >>> 1 = c.INIT_SAMPLE_RATE / 2 := by
    simp [Nat.shiftRight_eq_div_pow]
  unfold fft_get_max_frequency
  rw [hshift]
  rcases peak_search_invariant c s hg (c.INIT_SAMPLE_RATE / 2 - 1) with
    ⟨hr, hno⟩ | ⟨k, hk1, hk2, hk, hr, _⟩
  · exact ⟨fun _ i h1 h2 => hno i h1 (by omega), fun _ => hr⟩
  · constructor
    · intro h
      rw [hr] at h
      have h0 : (0 : ℚ) ≤ _ := Int.cast_nonneg.mpr (bin_frequency_nonneg c s hg k)
      rw [h] at h0
      norm_num at h0
    · intro h
      exact absurd hk (h k hk1 (by omega))

/-- C5 on the initial state of the example: the sampling frequency is 100, the buffer is
all zero, no bin qualifies, and the peak search returns the sentinel. -/
theorem C5_peak_search_sentinel_witness :
    0 ≤ (State.initial example_config).g_sampling_frequency ∧
      fft_get_max_frequency example_config (State.initial example_config) = -1 :=
  ⟨by simp [State.initial, example_config],
    (C5_peak_search_sentinel example_config (State.initial example_config)
      (by simp [State.initial, example_config])).mpr
      (fun i _ _ h => by simp [State.initial] at h)⟩

/-- C6 (peak-search tie-break): whenever bin `k` is the qualifying bin of greatest index in
`[1, N/2)`, `fft_get_max_frequency` returns `(k * g_sampling_frequency) / INIT_SAMPLE_RATE`,
whatever the magnitudes of the other bins are; with
`g_sampling_frequency == INIT_SAMPLE_RATE`, the value that `fft_init` sets before the
call, this is `k` itself. -/
theorem C6_peak_search_greatest_index (c : Config) (s : State) (k : ℕ)
    (hg : 0 ≤ s.g_sampling_frequency) (hk1 : 1 ≤ k) (hk2 : k < c.INIT_SAMPLE_RATE / 2)
    (hk : s.samples_real k > s.samples_real (k - 1) ∧ s.samples_real k > s.samples_real (k + 1) ∧
      s.samples_real k > c.NOISE_THRESHOLD)
    (hlast : ∀ j : ℕ, k < j → j < c.INIT_SAMPLE_RATE / 2 →
      ¬ (s.samples_real j > s.samples_real (j - 1) ∧ s.samples_real j > s.samples_real (j + 1) ∧
        s.samples_real j > c.NOISE_THRESHOLD)) :
    fft_get_max_frequency c s =
        ((Int.tdiv ((k : ℤ) * s.g_sampling_frequency) c.INIT_SAMPLE_RATE : ℤ) : ℚ) ∧
      (s.g_sampling_frequency = c.INIT_SAMPLE_RATE → fft_get_max_frequency c s = k) ∧
      ∀ (p : Platform) (s0 : State),
        (fft_init_analysis c p s0).g_sampling_frequency = c.INIT_SAMPLE_RATE := by
  have hshift : c.INIT_SAMPLE_RATE >>> 1 = c.INIT_SAMPLE_RATE / 2 := by
    simp [Nat.shiftRight_eq_div_pow]
  have hval : fft_get_max_frequency c s =
      ((Int.tdiv ((k : ℤ) * s.g_sampling_frequency) c.INIT_SAMPLE_RATE : ℤ) : ℚ) := by
    unfold fft_get_max_frequency
    rw [hshift]
    rcases peak_search_invariant c s hg (c.INIT_SAMPLE_RATE / 2 - 1) with
      ⟨_, hno⟩ | ⟨k2, h1, h2, hp, hr, hl⟩
    · exact absurd hk (hno k hk1 (by omega))
    · have hkk : k2 = k := by
        rcases Nat.lt_trichotomy k2 k with h | h | h
        · exact absurd hk (hl k h (by omega))
        · exact h
        · exact absurd hp (hlast k2 h (by omega))
      rw [hr, hkk]
  refine ⟨hval, fun hgN => ?_, fun _ _ => rfl⟩
  rw [hval, hgN]
  have hN : (c.INIT_SAMPLE_RATE : ℤ) ≠ 0 := by
    have : 0 < c.INIT_SAMPLE_RATE := by omega
    exact_mod_cast this.ne.symm
  rw [Int.tdiv_eq_ediv (mul_nonneg (Int.natCast_nonneg _) (Int.natCast_nonneg _))
    (Int.natCast_nonneg _), Int.mul_ediv_cancel _ hN]
  simp

/-- C6 on a buffer with two qualifying bins: bin 5 has the larger magnitude, bin 10 the
greater index, and the result is 10. -/
theorem C6_peak_search_greatest_index_witness :
    0 ≤ two_peak_state.g_sampling_frequency ∧ 1 ≤ 10 ∧ 10 < example_config.INIT_SAMPLE_RATE / 2 ∧
      two_peak_state.samples_real 5 > two_peak_state.samples_real 10 ∧
      fft_get_max_frequency example_config two_peak_state = 10 := by
  have hlast : ∀ j : ℕ, 10 < j → j < example_config.INIT_SAMPLE_RATE / 2 →
      ¬ (two_peak_state.samples_real j > two_peak_state.samples_real (j - 1) ∧
        two_peak_state.samples_real j > two_peak_state.samples_real (j + 1) ∧
        two_peak_state.samples_real j > example_config.NOISE_THRESHOLD) := by
    intro j h1 _ h
    have h5 : j ≠ 5 := by omega
    have h10 : j ≠ 10 := by omega
    have hz : two_peak_state.samples_real j = 0 := by simp [two_peak_state, h5, h10]
    rw [hz] at h
    have := h.2.2
    norm_num [example_config] at this
  have h := C6_peak_search_greatest_index example_config two_peak_state 10
    (by simp [two_peak_state, State.initial, example_config]) (by norm_num)
    (by norm_num [example_config])
    (by norm_num [two_peak_state, example_config]) hlast
  refine ⟨by simp [two_peak_state, State.initial, example_config], by norm_num,
    by norm_num [example_config], by norm_num [two_peak_state], ?_⟩
  have := h.2.1 (by simp [two_peak_state, State.initial, example_config])
  exact_mod_cast this


/-! ## Steady loop -/

theorem flush_window_resets (p : Platform) (s : State) :
    (flush_window p s).session_sum_sq = (0, 0, 0) ∧ (flush_window p s).num_of_samples = 0 := by
  simp [flush_window]

theorem flush_window_window_size (p : Platform) (s : State) :
    (flush_window p s).g_window_size = s.g_window_size := by
  simp only [flush_window, anomaly_detection, send_data]
  split_ifs <;> rfl

theorem flush_window_queue_sends (p : Platform) (s : State) :
    queue_sends (flush_window p s) = queue_sends s + 1 := by
  simp only [flush_window, anomaly_detection, send_data, queue_sends, sent_records]
  split_ifs <;> simp [List.filterMap_append]

theorem loop_body_window_size (p : Platform) (xFrequency : ℤ) (s : State) :
    (loop_body p xFrequency s).g_window_size = s.g_window_size := by
  simp only [loop_body, inter_sample_wait, light_sleep]
  split_ifs <;> simp [flush_window_window_size, accumulate, read_sample]

theorem loop_body_num_of_samples (p : Platform) (xFrequency : ℤ) (s : State) :
    (loop_body p xFrequency s).num_of_samples =
      if Int.tmod s.num_of_samples s.g_window_size = 0 then 1 else s.num_of_samples + 1 := by
  have hd : flush_due (accumulate p s) ↔ Int.tmod s.num_of_samples s.g_window_size = 0 := by
    simp [flush_due, accumulate, read_sample]
  simp only [loop_body, inter_sample_wait, light_sleep]
  by_cases h : Int.tmod s.num_of_samples s.g_window_size = 0
  · rw [if_pos (hd.mpr h), if_pos h]
    split_ifs <;> simp [(flush_window_resets p _).2]
  · rw [if_neg (fun hh => h (hd.mp hh)), if_neg h]
    split_ifs <;> simp [accumulate, read_sample]

theorem loop_body_queue_sends (p : Platform) (xFrequency : ℤ) (s : State) :
    queue_sends (loop_body p xFrequency s) =
      queue_sends s + if Int.tmod s.num_of_samples s.g_window_size = 0 then 1 else 0 := by
  have hd : flush_due (accumulate p s) ↔ Int.tmod s.num_of_samples s.g_window_size = 0 := by
    simp [flush_due, accumulate, read_sample]
  have hacc : queue_sends (accumulate p s) = queue_sends s := by
    simp [accumulate, read_sample, queue_sends, sent_records, List.filterMap_append]
  have hwait : ∀ t : State, queue_sends (inter_sample_wait xFrequency t) = queue_sends t := by
    intro t
    simp only [inter_sample_wait, light_sleep]
    split_ifs <;> simp [queue_sends, sent_records, List.filterMap_append]
  have hinc : ∀ t : State, queue_sends { t with num_of_samples := t.num_of_samples + 1 } =
      queue_sends t := fun t => rfl
  simp only [loop_body]
  rw [hwait, hinc]
  by_cases h : Int.tmod s.num_of_samples s.g_window_size = 0
  · rw [if_pos (hd.mpr h), if_pos h, flush_window_queue_sends, hacc]
  · rw [if_neg (fun hh => h (hd.mp hh)), if_neg h, hacc]
    rfl

theorem succ_div_mod (n W : ℕ) (hW : 0 < W) :
    (n % W + 1 = W → (n + 1) % W = 0 ∧ (n + 1) / W = n / W + 1) ∧
      (n % W + 1 ≠ W → (n + 1) % W = n % W + 1 ∧ (n + 1) / W = n / W) := by
  have hlt : n % W < W := Nat.mod_lt n hW
  have hsplit : n + 1 = W * (n / W) + (n % W + 1) := by
    have := Nat.div_add_mod n W
    omega
  constructor
  · intro h
    have h2 : n + 1 = W * (n / W + 1) := by rw [hsplit, h, Nat.mul_add, Nat.mul_one]
    rw [h2]
    exact ⟨Nat.mul_mod_right _ _, Nat.mul_div_cancel_left _ hW⟩
  · intro h
    have h3 : n % W + 1 < W := by omega
    rw [hsplit]
    constructor
    · rw [Nat.mul_add_mod, Nat.mod_eq_of_lt h3]
    · rw [Nat.mul_add_div hW, Nat.div_eq_of_lt h3, Nat.add_zero]

/-- The counters of the steady loop: started with count 0 and window size `W >= 1`, after
`n + 1` iterations the count is `n % W + 1` and `1 + n / W` records have been published. -/
theorem steady_loop_counters (p : Platform) (xFrequency : ℤ) (s : State) (W : ℕ) (hW : 0 < W)
    (hw : s.g_window_size = W) (h0 : s.num_of_samples = 0) (n : ℕ) :
    (steady_loop p xFrequency (n + 1) s).g_window_size = W ∧
      (steady_loop p xFrequency (n + 1) s).num_of_samples = ((n % W + 1 : ℕ) : ℤ) ∧
      queue_sends (steady_loop p xFrequency (n + 1) s) = queue_sends s + 1 + n / W := by
  induction n with
  | zero =>
    simp only [steady_loop, Function.iterate_succ, Function.iterate_zero, Function.comp_apply,
      id_eq]
    rw [loop_body_window_size, loop_body_num_of_samples, loop_body_queue_sends, h0]
    simp [hw]
  | succ n ih =>
    obtain ⟨ihw, ihn, ihq⟩ := ih
    have hstep : steady_loop p xFrequency (n + 1 + 1) s =
        loop_body p xFrequency (steady_loop p xFrequency (n + 1) s) := by
      simp only [steady_loop]
      exact Function.iterate_succ_apply' _ _ _
    rw [hstep, loop_body_window_size, loop_body_num_of_samples, loop_body_queue_sends, ihw, ihn,
      ihq]
    have hlt : n % W < W := Nat.mod_lt n hW
    have hmod : Int.tmod ((n % W + 1 : ℕ) : ℤ) (W : ℤ) = (((n % W + 1) % W : ℕ) : ℤ) := by
      rw [Int.tmod_eq_emod (Int.natCast_nonneg _) (Int.natCast_nonneg _)]
      norm_cast
    obtain ⟨hfull, hpart⟩ := succ_div_mod n W hW
    refine ⟨rfl, ?_, ?_⟩ <;> rw [hmod]
    · by_cases h : n % W + 1 = W
      · obtain ⟨h1, _⟩ := hfull h
        rw [h, Nat.mod_self, h1]
        simp
      · obtain ⟨h1, _⟩ := hpart h
        have h3 : (n % W + 1) % W = n % W + 1 := Nat.mod_eq_of_lt (by omega)
        rw [h3, h1, if_neg (by norm_cast)]
        push_cast
        ring
    · by_cases h : n % W + 1 = W
      · obtain ⟨_, h2⟩ := hfull h
        rw [h, Nat.mod_self, h2]
        simp
        ring
      · obtain ⟨_, h2⟩ := hpart h
        have h3 : (n % W + 1) % W = n % W + 1 := Nat.mod_eq_of_lt (by omega)
        rw [h3, h2, if_neg (by norm_cast)]
        rfl

/-! ## Calibration followed by the steady loop -/

theorem steady_fields_eq_refl (s : State) : steady_fields_eq s s :=
  ⟨rfl, rfl, rfl, rfl, rfl, rfl, rfl, rfl⟩

theorem steady_fields_eq_trans {s t u : State} (h1 : steady_fields_eq s t)
    (h2 : steady_fields_eq t u) : steady_fields_eq s u := by
  obtain ⟨a1, a2, a3, a4, a5, a6, a7, a8⟩ := h1
  obtain ⟨b1, b2, b3, b4, b5, b6, b7, b8⟩ := h2
  exact ⟨b1.trans a1, b2.trans a2, b3.trans a3, b4.trans a4, b5.trans a5, b6.trans a6,
    b7.trans a7, b8.trans a8⟩

theorem fft_sample_signal_steady_fields (c : Config) (p : Platform) (s : State) :
    steady_fields_eq s (fft_sample_signal c p s) := by
  unfold fft_sample_signal
  generalize List.range c.INIT_SAMPLE_RATE = l
  induction l generalizing s with
  | nil => exact steady_fields_eq_refl s
  | cons i l ih =>
    rw [List.foldl_cons]
    refine steady_fields_eq_trans ?_ (ih _)
    simp [steady_fields_eq, read_sample, light_sleep, sent_records, List.filterMap_append]

theorem fft_init_steady_fields (c : Config) (p : Platform) (s : State) :
    steady_fields_eq s (fft_init c p s) := by
  unfold fft_init
  split_ifs with h
  · have h1 := fft_sample_signal_steady_fields c p
      { s with g_sampling_frequency := c.FFT_SAMPLE_RATE }
    obtain ⟨a1, a2, a3, a4, a5, a6, a7, a8⟩ := h1
    exact ⟨a1, a2, a3, a4, a5, a6, a7, a8⟩
  · exact steady_fields_eq_refl s

theorem anomaly_detection_state (p : Platform) (x y z : ℚ) (s : State) :
    (anomaly_detection p x y z s).2 = { s with features := (x, y, z) } := by
  simp only [anomaly_detection]
  split_ifs <;> rfl

/-- The RMS vector published by a flush. -/
theorem flush_window_rms (p : Platform) (s : State) :
    sent_rms (flush_window p s) =
      sent_rms s ++
        [some (p.sqrtf (s.session_sum_sq.1 * (1 / (s.g_window_size : ℚ))),
          p.sqrtf (s.session_sum_sq.2.1 * (1 / (s.g_window_size : ℚ))),
          p.sqrtf (s.session_sum_sq.2.2 * (1 / (s.g_window_size : ℚ))))] := by
  simp only [flush_window]
  rw [anomaly_detection_state]
  split_ifs <;> simp [send_data, sent_rms, deref, List.filterMap_append]

/-- The RMS vector published by an iteration in which the flush is due. -/
theorem loop_body_flush_rms (p : Platform) (xFrequency : ℤ) (s : State)
    (h : Int.tmod s.num_of_samples s.g_window_size = 0) :
    sent_rms (loop_body p xFrequency s) =
      sent_rms s ++
        [some (p.sqrtf ((s.session_sum_sq.1 + (p.getGValues s.reads).x * (p.getGValues s.reads).x) *
              (1 / (s.g_window_size : ℚ))),
          p.sqrtf ((s.session_sum_sq.2.1 + (p.getGValues s.reads).z * (p.getGValues s.reads).z) *
              (1 / (s.g_window_size : ℚ))),
          p.sqrtf ((s.session_sum_sq.2.2 + (p.getGValues s.reads).y * (p.getGValues s.reads).y) *
              (1 / (s.g_window_size : ℚ))))] := by
  have hd : flush_due (accumulate p s) := by
    simpa [flush_due, accumulate, read_sample] using h
  have hwait : ∀ t : State, sent_rms (inter_sample_wait xFrequency t) = sent_rms t := by
    intro t
    simp only [inter_sample_wait, light_sleep]
    split_ifs <;> simp [sent_rms, List.filterMap_append]
  have hinc : ∀ t : State, sent_rms { t with num_of_samples := t.num_of_samples + 1 } =
      sent_rms t := fun t => rfl
  simp only [loop_body, if_pos hd]
  rw [hwait, hinc, flush_window_rms]
  simp [accumulate, read_sample, sent_rms, List.filterMap_append]

theorem loop_body_sum_sq (p : Platform) (xFrequency : ℤ) (s : State) :
    (loop_body p xFrequency s).session_sum_sq =
      if Int.tmod s.num_of_samples s.g_window_size = 0 then (0, 0, 0)
      else (s.session_sum_sq.1 + (p.getGValues s.reads).x * (p.getGValues s.reads).x,
        s.session_sum_sq.2.1 + (p.getGValues s.reads).z * (p.getGValues s.reads).z,
        s.session_sum_sq.2.2 + (p.getGValues s.reads).y * (p.getGValues s.reads).y) := by
  have hd : flush_due (accumulate p s) ↔ Int.tmod s.num_of_samples s.g_window_size = 0 := by
    simp [flush_due, accumulate, read_sample]
  simp only [loop_body, inter_sample_wait, light_sleep]
  by_cases h : Int.tmod s.num_of_samples s.g_window_size = 0
  · rw [if_pos (hd.mpr h), if_pos h]
    split_ifs <;> simp [(flush_window_resets p _).1]
  · rw [if_neg (fun hh => h (hd.mp hh)), if_neg h]
    split_ifs <;> simp [accumulate, read_sample]

theorem loop_body_no_flush_records (p : Platform) (xFrequency : ℤ) (s : State)
    (h : Int.tmod s.num_of_samples s.g_window_size ≠ 0) :
    sent_records (loop_body p xFrequency s) = sent_records s := by
  have hd : ¬ flush_due (accumulate p s) := by
    simpa [flush_due, accumulate, read_sample] using h
  simp only [loop_body, if_neg hd, inter_sample_wait, light_sleep]
  split_ifs <;> simp [accumulate, read_sample, sent_records, List.filterMap_append]

theorem loop_body_no_flush_rms (p : Platform) (xFrequency : ℤ) (s : State)
    (h : Int.tmod s.num_of_samples s.g_window_size ≠ 0) :
    sent_rms (loop_body p xFrequency s) = sent_rms s := by
  have hd : ¬ flush_due (accumulate p s) := by
    simpa [flush_due, accumulate, read_sample] using h
  simp only [loop_body, if_neg hd, inter_sample_wait, light_sleep]
  split_ifs <;> simp [accumulate, read_sample, sent_rms, List.filterMap_append]

/-- The steady loop on a constant signal `v`, started with count 0, sums 0 and window size
`W >= 1`: the first published RMS vector is the root of one squared sample divided by `W`,
and each of the `n / W` later ones is the root of the squared sample itself. -/
theorem steady_loop_constant_signal (p : Platform) (xFrequency : ℤ) (s : State) (W : ℕ)
    (hW : 0 < W) (hw : s.g_window_size = W) (h0 : s.num_of_samples = 0)
    (hs : s.session_sum_sq = (0, 0, 0)) (v : xyzFloat) (hv : ∀ k, p.getGValues k = v) (n : ℕ) :
    (steady_loop p xFrequency (n + 1) s).session_sum_sq =
        (((n % W : ℕ) : ℚ) * (v.x * v.x), ((n % W : ℕ) : ℚ) * (v.z * v.z),
          ((n % W : ℕ) : ℚ) * (v.y * v.y)) ∧
      sent_rms (steady_loop p xFrequency (n + 1) s) =
        sent_rms s ++
          some (p.sqrtf (v.x * v.x * (1 / (W : ℚ))), p.sqrtf (v.z * v.z * (1 / (W : ℚ))),
              p.sqrtf (v.y * v.y * (1 / (W : ℚ)))) ::
            List.replicate (n / W)
              (some (p.sqrtf (v.x * v.x), p.sqrtf (v.z * v.z), p.sqrtf (v.y * v.y))) := by
  induction n with
  | zero =>
    simp only [steady_loop, Function.iterate_succ, Function.iterate_zero, Function.comp_apply,
      id_eq]
    rw [loop_body_sum_sq, loop_body_flush_rms _ _ _ (by rw [h0]; simp), h0, hs, hw, hv]
    simp
  | succ n ih =>
    obtain ⟨ihs, ihr⟩ := ih
    obtain ⟨cw, cn, _⟩ := steady_loop_counters p xFrequency s W hW hw h0 n
    have hstep : steady_loop p xFrequency (n + 1 + 1) s =
        loop_body p xFrequency (steady_loop p xFrequency (n + 1) s) := by
      simp only [steady_loop]
      exact Function.iterate_succ_apply' _ _ _
    have hmod : Int.tmod ((n % W + 1 : ℕ) : ℤ) (W : ℤ) = (((n % W + 1) % W : ℕ) : ℤ) := by
      rw [Int.tmod_eq_emod (Int.natCast_nonneg _) (Int.natCast_nonneg _)]
      norm_cast
    have hlt : n % W < W := Nat.mod_lt n hW
    have hWq : (W : ℚ) ≠ 0 := by exact_mod_cast hW.ne.symm
    obtain ⟨hfull, hpart⟩ := succ_div_mod n W hW
    rw [hstep]
    by_cases h : n % W + 1 = W
    · obtain ⟨h1, h2⟩ := hfull h
      have hdue : Int.tmod (steady_loop p xFrequency (n + 1) s).num_of_samples
          (steady_loop p xFrequency (n + 1) s).g_window_size = 0 := by
        rw [cw, cn, hmod, h, Nat.mod_self]
        rfl
      have hcast : ((n % W : ℕ) : ℚ) + 1 = (W : ℚ) := by exact_mod_cast h
      constructor
      · rw [loop_body_sum_sq, if_pos hdue, h1]
        simp
      · rw [loop_body_flush_rms _ _ _ hdue, ihr, ihs, cw, hv, h2, List.replicate_succ']
        have e : ∀ a : ℚ, (((n % W : ℕ) : ℚ) * a + a) * (1 / (((W : ℕ) : ℤ) : ℚ)) = a := by
          intro a
          have : ((n % W : ℕ) : ℚ) * a + a = (W : ℚ) * a := by rw [← hcast]; ring
          rw [this]
          push_cast
          field_simp
        simp only [e]
        simp
    · obtain ⟨h1, h2⟩ := hpart h
      have h3 : (n % W + 1) % W = n % W + 1 := Nat.mod_eq_of_lt (by omega)
      have hdue : Int.tmod (steady_loop p xFrequency (n + 1) s).num_of_samples
          (steady_loop p xFrequency (n + 1) s).g_window_size ≠ 0 := by
        rw [cw, cn, hmod, h3]
        norm_cast
      constructor
      · rw [loop_body_sum_sq, if_neg hdue, ihs, hv, h1]
        push_cast
        ext <;> simp <;> ring
      · rw [loop_body_no_flush_rms _ _ _ hdue, ihr, h2]

/-- The state in which `fft_sampling_task` enters its loop on the example: calibrated
from the initial state, with count 0, sums 0 and nothing published yet. -/
theorem example_loop_entry (c : Config) (p : Platform) (hN : c.INIT_SAMPLE_RATE = 100)
    (hT : c.NOISE_THRESHOLD = 1 / 2) (hA : p.fft_analysis = example_platform.fft_analysis)
    (n : ℕ) :
    fft_sampling_task c p n (State.initial c) =
        steady_loop p (p.pdMS_TO_TICKS (Int.tdiv 1000 (State.initial c).g_sampling_frequency)) n
          (fft_init c p (State.initial c)) ∧
      (fft_init c p (State.initial c)).g_window_size = 25 * c.SESSION_DURATION_SEC ∧
      (fft_init c p (State.initial c)).num_of_samples = 0 ∧
      (fft_init c p (State.initial c)).session_sum_sq = (0, 0, 0) ∧
      sent_records (fft_init c p (State.initial c)) = [] := by
  obtain ⟨_, _, hw⟩ := example_calibration c p (State.initial c) hN hT hA rfl
  obtain ⟨_, _, _, hn, hs, _, _, hr⟩ := fft_init_steady_fields c p (State.initial c)
  refine ⟨?_, hw, hn, hs, hr⟩
  simp [fft_sampling_task, State.initial]

/-- C7 (flush cadence) evaluated on the example of the spec (window size 750): the task
has published one record after the first sample, where `1 / 750 = 0` flushes are due, and
two records after 751 samples, where `751 / 750 = 1` flush is due. -/
theorem C7_flush_cadence_first_sample :
    (fft_sampling_task example_config example_platform 1
        (State.initial example_config)).g_window_size = 750 ∧
      queue_sends (fft_sampling_task example_config example_platform 1
        (State.initial example_config)) = 1 ∧
      1 / 750 = 0 ∧
      queue_sends (fft_sampling_task example_config example_platform 751
        (State.initial example_config)) = 2 ∧
      751 / 750 = 1 := by
  obtain ⟨hrun1, hw, hn, _, hr⟩ :=
    example_loop_entry example_config example_platform rfl rfl rfl 1
  obtain ⟨hrun751, _⟩ := example_loop_entry example_config example_platform rfl rfl rfl 751
  have hw2 : (fft_init example_config example_platform (State.initial example_config)).g_window_size =
      ((750 : ℕ) : ℤ) := by
    rw [hw]
    rfl
  have hq : queue_sends (fft_init example_config example_platform (State.initial example_config)) =
      0 := by
    simp [queue_sends, hr]
  obtain ⟨a1, _, a3⟩ := steady_loop_counters example_platform
    (example_platform.pdMS_TO_TICKS
      (Int.tdiv 1000 (State.initial example_config).g_sampling_frequency))
    _ 750 (by norm_num) hw2 hn 0
  obtain ⟨_, _, b3⟩ := steady_loop_counters example_platform
    (example_platform.pdMS_TO_TICKS
      (Int.tdiv 1000 (State.initial example_config).g_sampling_frequency))
    _ 750 (by norm_num) hw2 hn 750
  rw [hrun1, hrun751]
  refine ⟨?_, ?_, by norm_num, ?_, by norm_num⟩
  · rw [a1]
    rfl
  · rw [a3, hq]
  · rw [b3, hq]

theorem sent_rms_eq_nil (s : State) (h : sent_records s = []) :
    sent_rms s = [] ∧ offered s = [] := by
  have key : ∀ l : List Event,
      l.filterMap (fun e => match e with
        | Event.xQueueSend r _ => some r
        | _ => none) = [] →
      l.filterMap (fun e => match e with
        | Event.xQueueSend _ pointee => some pointee
        | _ => none) = [] ∧
      l.filterMap (fun e => match e with
        | Event.xQueueSend r pointee => some (r, pointee)
        | _ => none) = [] := by
    intro l
    induction l with
    | nil => exact fun _ => ⟨rfl, rfl⟩
    | cons e l ih =>
      intro hl
      cases e <;> simp_all [List.filterMap_cons]
  exact key s.trace h

/-- C8 (RMS of a constant signal) evaluated on the constant sample `(0, 1, 0)` with window
size 25: whatever the square root routine `f` is, the RMS vectors that the task has
published after 26 samples (the vectors that the published records referred to when they
were handed over) are `(f 0, f (1 / 25), f 0)` followed by `(f 0, f 1, f 0)`; only the
second is the root of the squared sample. -/
theorem C8_constant_signal_first_rms (f : ℚ → ℚ) :
    (fft_sampling_task short_session_config (constant_signal_platform f) 26
        (State.initial short_session_config)).g_window_size = 25 ∧
      sent_rms (fft_sampling_task short_session_config (constant_signal_platform f) 26
        (State.initial short_session_config)) =
        [some (f 0, f (1 / 25), f 0), some (f 0, f 1, f 0)] := by
  obtain ⟨hrun, hw, hn, hs, hr⟩ :=
    example_loop_entry short_session_config (constant_signal_platform f) rfl rfl rfl 26
  have hw2 : (fft_init short_session_config (constant_signal_platform f)
      (State.initial short_session_config)).g_window_size = ((25 : ℕ) : ℤ) := by
    rw [hw]
    rfl
  obtain ⟨cw, _, _⟩ := steady_loop_counters (constant_signal_platform f)
    ((constant_signal_platform f).pdMS_TO_TICKS
      (Int.tdiv 1000 (State.initial short_session_config).g_sampling_frequency))
    _ 25 (by norm_num) hw2 hn 25
  obtain ⟨_, hrms⟩ := steady_loop_constant_signal (constant_signal_platform f)
    ((constant_signal_platform f).pdMS_TO_TICKS
      (Int.tdiv 1000 (State.initial short_session_config).g_sampling_frequency))
    _ 25 (by norm_num) hw2 hn hs { x := 0, y := 0, z := 1 } (fun _ => rfl) 25
  rw [hrun]
  constructor
  · rw [cw]
    rfl
  · rw [hrms, (sent_rms_eq_nil _ hr).1]
    norm_num [constant_signal_platform]

/-- C9, as stated, fails: with window size 25 the count at the start of the 26th iteration
equals the window size. -/
theorem C9_accumulator_invariant_counterexample :
    ¬ ((fft_sampling_task short_session_config example_platform 25
          (State.initial short_session_config)).num_of_samples <
        (fft_sampling_task short_session_config example_platform 25
          (State.initial short_session_config)).g_window_size) := by
  obtain ⟨hrun, hw, hn, _, _⟩ :=
    example_loop_entry short_session_config example_platform rfl rfl rfl 25
  have hw2 : (fft_init short_session_config example_platform
      (State.initial short_session_config)).g_window_size = ((25 : ℕ) : ℤ) := by
    rw [hw]
    rfl
  obtain ⟨a1, a2, _⟩ := steady_loop_counters example_platform
    (example_platform.pdMS_TO_TICKS
      (Int.tdiv 1000 (State.initial short_session_config).g_sampling_frequency))
    _ 25 (by norm_num) hw2 hn 24
  rw [hrun, a1, a2]
  norm_num

/-- C9 (accumulator invariant, amended): started with `0 <= num_of_samples <= g_window_size`
and `g_window_size >= 1`, at the start of every iteration of the steady loop the count
satisfies `0 <= num_of_samples <= g_window_size`, and immediately after a flush the three
sums of squares and the count are zero. -/
theorem C9_accumulator_invariant (p : Platform) (xFrequency : ℤ) (s : State) (n : ℕ)
    (hW : 1 ≤ s.g_window_size) (h0 : 0 ≤ s.num_of_samples)
    (h1 : s.num_of_samples ≤ s.g_window_size) :
    (0 ≤ (steady_loop p xFrequency n s).num_of_samples ∧
        (steady_loop p xFrequency n s).num_of_samples ≤
          (steady_loop p xFrequency n s).g_window_size) ∧
      ∀ u : State, (flush_window p u).session_sum_sq = (0, 0, 0) ∧
        (flush_window p u).num_of_samples = 0 := by
  refine ⟨?_, fun u => flush_window_resets p u⟩
  have key : (steady_loop p xFrequency n s).g_window_size = s.g_window_size ∧
      0 ≤ (steady_loop p xFrequency n s).num_of_samples ∧
      (steady_loop p xFrequency n s).num_of_samples ≤ s.g_window_size := by
    induction n with
    | zero => exact ⟨rfl, h0, h1⟩
    | succ n ih =>
      obtain ⟨ihw, ih0, ih1⟩ := ih
      have hstep : steady_loop p xFrequency (n + 1) s =
          loop_body p xFrequency (steady_loop p xFrequency n s) := by
        simp only [steady_loop]
        exact Function.iterate_succ_apply' _ _ _
      rw [hstep, loop_body_window_size, loop_body_num_of_samples, ihw]
      refine ⟨rfl, ?_, ?_⟩
      · split_ifs <;> omega
      · split_ifs with hf
        · exact hW
        · have hne : (steady_loop p xFrequency n s).num_of_samples ≠ s.g_window_size := by
            intro he
            rw [he, Int.tmod_self] at hf
            exact hf rfl
          omega
  obtain ⟨kw, k0, k1⟩ := key
  exact ⟨k0, by rw [kw]; exact k1⟩

/-- C9 amended on the example: the loop entered after calibration with window size 750,
observed after 750 iterations. -/
theorem C9_accumulator_invariant_witness :
    (1 ≤ (fft_init example_config example_platform
          (State.initial example_config)).g_window_size ∧
        (fft_init example_config example_platform
          (State.initial example_config)).num_of_samples = 0) ∧
      (0 ≤ (steady_loop example_platform 10 750 (fft_init example_config example_platform
          (State.initial example_config))).num_of_samples ∧
        (steady_loop example_platform 10 750 (fft_init example_config example_platform
          (State.initial example_config))).num_of_samples ≤
          (steady_loop example_platform 10 750 (fft_init example_config example_platform
            (State.initial example_config))).g_window_size) := by
  obtain ⟨_, hw, hn, _, _⟩ := example_loop_entry example_config example_platform rfl rfl rfl 0
  have hw2 : (fft_init example_config example_platform (State.initial example_config)).g_window_size =
      750 := by
    rw [hw]
    rfl
  exact ⟨⟨by rw [hw2]; norm_num, hn⟩,
    (C9_accumulator_invariant example_platform 10 _ 750 (by rw [hw2]; norm_num)
      (by rw [hn]) (by rw [hn, hw2]; norm_num)).1⟩

/-! ## Anomaly decision -/

/-- C10 (anomaly decision rule with fail-open): for every classifier outcome,
`anomaly_detection` returns true if and only if the status is `EI_IMPULSE_OK` and the
probability of label 0 is strictly greater than 0.5; for a non-success status it returns
false whatever the probabilities are. -/
theorem C10_anomaly_decision (p : Platform) (rms_x rms_y rms_z : ℚ) (s : State) :
    ((anomaly_detection p rms_x rms_y rms_z s).1 = true ↔
        (p.run_classifier (rms_x, rms_y, rms_z)).1 = EI_IMPULSE_OK ∧
          (p.run_classifier (rms_x, rms_y, rms_z)).2 0 > 1 / 2) ∧
      ((p.run_classifier (rms_x, rms_y, rms_z)).1 ≠ EI_IMPULSE_OK →
        (anomaly_detection p rms_x rms_y rms_z s).1 = false) := by
  simp only [anomaly_detection]
  constructor
  · split_ifs with h1 h2
    · exact ⟨fun h => by simp at h, fun h => absurd h.1 h1⟩
    · exact ⟨fun _ => ⟨not_not.mp h1, h2⟩, fun _ => rfl⟩
    · exact ⟨fun h => by simp at h, fun h => absurd h.2 h2⟩
  · intro h
    rw [if_pos h]


/-! ## One iteration of the steady loop, field by field -/

theorem flush_due_accumulate (p : Platform) (s : State) :
    flush_due (accumulate p s) ↔ Int.tmod s.num_of_samples s.g_window_size = 0 := by
  simp [flush_due, accumulate, read_sample]

/-- Everything a flush does, field by field. -/
theorem flush_window_fields (p : Platform) (s : State) :
    (flush_window p s).trace =
        s.trace ++ Event.xQueueSend (window_record p s) (some (window_rms p s)) ::
          (if s.sending_window then [] else [Event.xTaskCreatePinnedToCore]) ∧
      (flush_window p s).sending_window = true ∧
      (flush_window p s).anomaly_detected =
        (s.anomaly_detected || (window_record p s).anomaly) ∧
      (flush_window p s).anomaly =
        (if (window_record p s).anomaly then window_record p s else s.anomaly) ∧
      (flush_window p s).anomaly_sent = s.anomaly_sent ∧
      (flush_window p s).fft_init_complete = s.fft_init_complete ∧
      (flush_window p s).g_sampling_frequency = s.g_sampling_frequency ∧
      (flush_window p s).reads = s.reads := by
  simp only [flush_window, window_record, window_rms]
  rw [anomaly_detection_state]
  split_ifs <;> simp_all [send_data, deref]

/-- Everything one iteration of the steady loop does, field by field. -/
theorem loop_body_fields (p : Platform) (xFrequency : ℤ) (s : State) :
    (loop_body p xFrequency s).trace =
        s.trace ++ Event.getGValues ::
          ((if Int.tmod s.num_of_samples s.g_window_size = 0 then
              Event.xQueueSend (window_record p (accumulate p s))
                  (some (window_rms p (accumulate p s))) ::
                (if s.sending_window then [] else [Event.xTaskCreatePinnedToCore])
            else []) ++
            [if s.sending_window = true ∨ Int.tmod s.num_of_samples s.g_window_size = 0 then
              Event.vTaskDelayUntil xFrequency
            else Event.light_sleep (Int.tdiv 1000 s.g_sampling_frequency)]) ∧
      ((loop_body p xFrequency s).sending_window = true ↔
        s.sending_window = true ∨ Int.tmod s.num_of_samples s.g_window_size = 0) ∧
      ((loop_body p xFrequency s).anomaly_detected = true ↔
        s.anomaly_detected = true ∨ (Int.tmod s.num_of_samples s.g_window_size = 0 ∧
          (window_record p (accumulate p s)).anomaly = true)) ∧
      (loop_body p xFrequency s).anomaly =
        (if Int.tmod s.num_of_samples s.g_window_size = 0 ∧
            (window_record p (accumulate p s)).anomaly = true then
          window_record p (accumulate p s)
        else s.anomaly) ∧
      (loop_body p xFrequency s).anomaly_sent = s.anomaly_sent ∧
      (loop_body p xFrequency s).fft_init_complete = s.fft_init_complete ∧
      (loop_body p xFrequency s).g_sampling_frequency = s.g_sampling_frequency ∧
      (loop_body p xFrequency s).reads = s.reads + 1 := by
  have hacc : (accumulate p s).trace = s.trace ++ [Event.getGValues] ∧
      (accumulate p s).sending_window = s.sending_window ∧
      (accumulate p s).anomaly_detected = s.anomaly_detected ∧
      (accumulate p s).anomaly = s.anomaly ∧
      (accumulate p s).anomaly_sent = s.anomaly_sent ∧
      (accumulate p s).fft_init_complete = s.fft_init_complete ∧
      (accumulate p s).g_sampling_frequency = s.g_sampling_frequency ∧
      (accumulate p s).reads = s.reads + 1 := by
    simp [accumulate, read_sample]
  obtain ⟨a1, a2, a3, a4, a5, a6, a7, a8⟩ := hacc
  by_cases h : Int.tmod s.num_of_samples s.g_window_size = 0
  · have hd : flush_due (accumulate p s) := (flush_due_accumulate p s).mpr h
    obtain ⟨f1, f2, f3, f4, f5, f6, f7, f8⟩ := flush_window_fields p (accumulate p s)
    have hl : loop_body p xFrequency s =
        { (flush_window p (accumulate p s)) with
          num_of_samples := (flush_window p (accumulate p s)).num_of_samples + 1
          trace := (flush_window p (accumulate p s)).trace ++
            [Event.vTaskDelayUntil xFrequency] } := by
      simp only [loop_body, if_pos hd, inter_sample_wait, f2, if_true]
    rw [hl]
    refine ⟨?_, ?_, ?_, ?_, ?_, ?_, ?_, ?_⟩
    · simp [f1, a1, a2, h]
    · simp [f2, h]
    · simp [f3, a3, h]
    · simp [f4, a4, h]
    · simp [f5, a5]
    · simp [f6, a6]
    · simp [f7, a7]
    · simp [f8, a8]
  · have hd : ¬ flush_due (accumulate p s) := fun hh => h ((flush_due_accumulate p s).mp hh)
    simp only [loop_body, if_neg hd, inter_sample_wait, light_sleep, h, or_false, false_and,
      if_false]
    cases hs : s.sending_window <;> simp [a1, a2, a3, a4, a5, a6, a7, a8, hs]

theorem loop_body_task_creates (p : Platform) (xFrequency : ℤ) (s : State) :
    task_creates (loop_body p xFrequency s) =
      task_creates s +
        (if flush_due (accumulate p s) ∧ s.sending_window = false then 1 else 0) := by
  obtain ⟨h1, _⟩ := loop_body_fields p xFrequency s
  simp only [task_creates, h1]
  by_cases h : Int.tmod s.num_of_samples s.g_window_size = 0
  · have hd := (flush_due_accumulate p s).mpr h
    cases hs : s.sending_window <;> simp [h, hd, List.count_append, List.count_cons]
  · have hd : ¬ flush_due (accumulate p s) := fun hh => h ((flush_due_accumulate p s).mp hh)
    cases hs : s.sending_window <;> simp [h, hd, List.count_append, List.count_cons]

theorem loop_body_light_sleeps (p : Platform) (xFrequency : ℤ) (s : State) :
    light_sleeps (loop_body p xFrequency s) =
      light_sleeps s +
        (if s.sending_window = true ∨ flush_due (accumulate p s) then 0 else 1) := by
  obtain ⟨h1, _⟩ := loop_body_fields p xFrequency s
  simp only [light_sleeps, h1]
  by_cases h : Int.tmod s.num_of_samples s.g_window_size = 0
  · have hd := (flush_due_accumulate p s).mpr h
    cases hs : s.sending_window <;> simp [h, hd, List.countP_append, List.countP_cons]
  · have hd : ¬ flush_due (accumulate p s) := fun hh => h ((flush_due_accumulate p s).mp hh)
    cases hs : s.sending_window <;> simp [h, hd, List.countP_append, List.countP_cons]

theorem loop_body_delay_intervals (p : Platform) (xFrequency : ℤ) (s : State) :
    delay_intervals (loop_body p xFrequency s) =
      delay_intervals s ++
        (if s.sending_window = true ∨ flush_due (accumulate p s) then [xFrequency] else []) := by
  obtain ⟨h1, _⟩ := loop_body_fields p xFrequency s
  simp only [delay_intervals, h1]
  by_cases h : Int.tmod s.num_of_samples s.g_window_size = 0
  · have hd := (flush_due_accumulate p s).mpr h
    cases hs : s.sending_window <;> simp [h, hd, List.filterMap_append]
  · have hd : ¬ flush_due (accumulate p s) := fun hh => h ((flush_due_accumulate p s).mp hh)
    cases hs : s.sending_window <;> simp [h, hd, List.filterMap_append]

theorem steady_loop_succ (p : Platform) (xFrequency : ℤ) (n : ℕ) (s : State) :
    steady_loop p xFrequency (n + 1) s = loop_body p xFrequency (steady_loop p xFrequency n s) := by
  simp only [steady_loop]
  exact Function.iterate_succ_apply' _ _ _

/-- The globals that the steady loop never writes, and the acquisition counter. -/
theorem steady_loop_constants (p : Platform) (xFrequency : ℤ) (n : ℕ) (s : State) :
    (steady_loop p xFrequency n s).anomaly_sent = s.anomaly_sent ∧
      (steady_loop p xFrequency n s).fft_init_complete = s.fft_init_complete ∧
      (steady_loop p xFrequency n s).g_sampling_frequency = s.g_sampling_frequency ∧
      (steady_loop p xFrequency n s).g_window_size = s.g_window_size ∧
      (steady_loop p xFrequency n s).reads = s.reads + n := by
  induction n with
  | zero => exact ⟨rfl, rfl, rfl, rfl, rfl⟩
  | succ n ih =>
    obtain ⟨i1, i2, i3, i4, i5⟩ := ih
    obtain ⟨_, _, _, _, b5, b6, b7, b8⟩ :=
      loop_body_fields p xFrequency (steady_loop p xFrequency n s)
    rw [steady_loop_succ]
    refine ⟨b5.trans i1, b6.trans i2, b7.trans i3, (loop_body_window_size _ _ _).trans i4, ?_⟩
    rw [b8, i5]
    ring

/-- Everything `send_anomaly_task` does, field by field. -/
theorem send_anomaly_task_fields (s : State) :
    sent_records (send_anomaly_task s) =
        sent_records s ++
          (if s.anomaly_detected = true ∧ s.anomaly_sent = false then [s.anomaly] else []) ∧
      ((send_anomaly_task s).anomaly_sent = true ↔
        s.anomaly_sent = true ∨ s.anomaly_detected = true) ∧
      (send_anomaly_task s).anomaly_detected = s.anomaly_detected ∧
      (send_anomaly_task s).anomaly = s.anomaly ∧
      (send_anomaly_task s).fft_init_complete = s.fft_init_complete := by
  simp only [send_anomaly_task, send_data, sent_records]
  cases hd : s.anomaly_detected <;> cases hs : s.anomaly_sent <;>
    simp [List.filterMap_append, hd, hs]

theorem run_schedule_cons (p : Platform) (xFrequency : ℤ) (a : Activation)
    (rest : List Activation) (s : State) :
    run_schedule p xFrequency (a :: rest) s =
      run_schedule p xFrequency rest (run_activation p xFrequency a s) := rfl

/-- Once `anomaly_sent` is set it stays set, and no later run of `send_anomaly_task`
offers a record to the queue. -/
theorem anomaly_sent_latched (p : Platform) (xFrequency : ℤ) (schedule : List Activation)
    (s : State) (h : s.anomaly_sent = true) :
    (run_schedule p xFrequency schedule s).anomaly_sent = true ∧
      anomaly_deliveries p xFrequency schedule s = 0 := by
  induction schedule generalizing s with
  | nil => exact ⟨h, rfl⟩
  | cons a rest ih =>
    cases a with
    | loop_iteration =>
      obtain ⟨_, _, _, _, b5, _⟩ := loop_body_fields p xFrequency s
      exact ih (loop_body p xFrequency s) (b5.trans h)
    | anomaly_task =>
      obtain ⟨c1, c2, _⟩ := send_anomaly_task_fields s
      obtain ⟨i1, i2⟩ := ih (send_anomaly_task s) (c2.mpr (Or.inl h))
      refine ⟨i1, ?_⟩
      simp only [anomaly_deliveries, i2, queue_sends, c1]
      simp [h]

/-- C11 (at-most-once anomaly delivery): over every sequential interleaving of steady-loop
iterations and runs of `send_anomaly_task`, started in any state, the runs of
`send_anomaly_task` offer at most one record to the queue in total, whatever the
classifier says about the windows; once `anomaly_sent` is set it is never reset and no
further record is offered. -/
theorem C11_anomaly_delivery_at_most_once (p : Platform) (xFrequency : ℤ)
    (schedule : List Activation) (s : State) :
    anomaly_deliveries p xFrequency schedule s ≤ 1 ∧
      (s.anomaly_sent = true →
        (run_schedule p xFrequency schedule s).anomaly_sent = true ∧
          anomaly_deliveries p xFrequency schedule s = 0) := by
  refine ⟨?_, anomaly_sent_latched p xFrequency schedule s⟩
  induction schedule generalizing s with
  | nil => exact Nat.zero_le 1
  | cons a rest ih =>
    cases a with
    | loop_iteration => exact ih (loop_body p xFrequency s)
    | anomaly_task =>
      obtain ⟨c1, c2, _⟩ := send_anomaly_task_fields s
      simp only [anomaly_deliveries, queue_sends, c1]
      by_cases hg : s.anomaly_detected = true ∧ s.anomaly_sent = false
      · obtain ⟨_, i2⟩ := anomaly_sent_latched p xFrequency rest (send_anomaly_task s)
          (c2.mpr (Or.inr hg.1))
        rw [i2, if_pos hg]
        simp
      · rw [if_neg hg]
        simpa using ih (send_anomaly_task s)

/-- The calibration creates no task and takes no periodic delay. -/
theorem fft_init_trace_counts (c : Config) (p : Platform) (s : State) :
    task_creates (fft_init c p s) = task_creates s ∧
      delay_intervals (fft_init c p s) = delay_intervals s := by
  have hfold : ∀ (l : List ℕ) (u : State),
      task_creates (l.foldl
          (fun st i =>
            let (sample, st1) := read_sample p st
            let st2 :=
              { st1 with
                samples_real :=
                  Function.update st1.samples_real i (sample.1 + sample.2.1 + sample.2.2) }
            light_sleep (Int.tdiv 1000 st2.g_sampling_frequency) st2) u) = task_creates u ∧
        delay_intervals (l.foldl
          (fun st i =>
            let (sample, st1) := read_sample p st
            let st2 :=
              { st1 with
                samples_real :=
                  Function.update st1.samples_real i (sample.1 + sample.2.1 + sample.2.2) }
            light_sleep (Int.tdiv 1000 st2.g_sampling_frequency) st2) u) = delay_intervals u := by
    intro l
    induction l with
    | nil => exact fun u => ⟨rfl, rfl⟩
    | cons i l ih =>
      intro u
      rw [List.foldl_cons]
      obtain ⟨h1, h2⟩ := ih (light_sleep (Int.tdiv 1000 u.g_sampling_frequency)
        { (read_sample p u).2 with
          samples_real := Function.update (read_sample p u).2.samples_real i
            ((read_sample p u).1.1 + (read_sample p u).1.2.1 + (read_sample p u).1.2.2) })
      refine ⟨h1.trans ?_, h2.trans ?_⟩
      · simp [task_creates, read_sample, light_sleep, List.count_append, List.count_cons]
      · simp [delay_intervals, read_sample, light_sleep, List.filterMap_append]
  unfold fft_init
  split_ifs with h
  · obtain ⟨h1, h2⟩ := hfold (List.range c.INIT_SAMPLE_RATE)
      { s with g_sampling_frequency := c.FFT_SAMPLE_RATE }
    exact ⟨h1, h2⟩
  · exact ⟨rfl, rfl⟩

/-- C12 (transmission-start latch): started with `sending_window == false`, after any
number of iterations of the steady loop the transmission task has been created once if a
record has been published since the start and not at all otherwise, so it is created at
most once and in the iteration of the first publish; `sending_window` is set from
then on, and an iteration that starts with `sending_window` set keeps it set and creates no
task. -/
theorem C12_transmission_start_latch (p : Platform) (xFrequency : ℤ) (s : State) (n : ℕ)
    (h : s.sending_window = false) :
    task_creates (steady_loop p xFrequency n s) =
        task_creates s +
          (if queue_sends s < queue_sends (steady_loop p xFrequency n s) then 1 else 0) ∧
      ((steady_loop p xFrequency n s).sending_window = true ↔
        queue_sends s < queue_sends (steady_loop p xFrequency n s)) ∧
      ∀ u : State, u.sending_window = true →
        (loop_body p xFrequency u).sending_window = true ∧
          task_creates (loop_body p xFrequency u) = task_creates u := by
  have key : queue_sends s ≤ queue_sends (steady_loop p xFrequency n s) ∧
      ((steady_loop p xFrequency n s).sending_window = true ↔
        queue_sends s < queue_sends (steady_loop p xFrequency n s)) ∧
      task_creates (steady_loop p xFrequency n s) =
        task_creates s +
          (if queue_sends s < queue_sends (steady_loop p xFrequency n s) then 1 else 0) := by
    induction n with
    | zero => simp [steady_loop, h]
    | succ n ih =>
      obtain ⟨i1, i2, i3⟩ := ih
      obtain ⟨_, b2, _⟩ := loop_body_fields p xFrequency (steady_loop p xFrequency n s)
      rw [steady_loop_succ]
      by_cases hd : Int.tmod (steady_loop p xFrequency n s).num_of_samples
          (steady_loop p xFrequency n s).g_window_size = 0
      · have hd2 := (flush_due_accumulate p (steady_loop p xFrequency n s)).mpr hd
        have hq1 : queue_sends (loop_body p xFrequency (steady_loop p xFrequency n s)) =
            queue_sends (steady_loop p xFrequency n s) + 1 := by
          rw [loop_body_queue_sends, if_pos hd]
        rcases Bool.eq_false_or_eq_true (steady_loop p xFrequency n s).sending_window with
          hs | hs
        · have hq : queue_sends s < queue_sends (steady_loop p xFrequency n s) := i2.mp hs
          have ht1 : task_creates (loop_body p xFrequency (steady_loop p xFrequency n s)) =
              task_creates (steady_loop p xFrequency n s) := by
            rw [loop_body_task_creates, if_neg (fun hh => by simp [hs] at hh)]
            rfl
          rw [hq1, ht1, i3, if_pos hq, if_pos (by omega)]
          exact ⟨by omega, ⟨fun _ => by omega, fun _ => b2.mpr (Or.inr hd)⟩, rfl⟩
        · have hq : ¬ queue_sends s < queue_sends (steady_loop p xFrequency n s) := fun hh =>
            by simp [i2.mpr hh] at hs
          have ht1 : task_creates (loop_body p xFrequency (steady_loop p xFrequency n s)) =
              task_creates (steady_loop p xFrequency n s) + 1 := by
            rw [loop_body_task_creates, if_pos ⟨hd2, hs⟩]
          rw [hq1, ht1, i3, if_neg hq, if_pos (by omega)]
          exact ⟨by omega, ⟨fun _ => by omega, fun _ => b2.mpr (Or.inr hd)⟩, rfl⟩
      · have hd2 : ¬ flush_due (accumulate p (steady_loop p xFrequency n s)) := fun hh =>
          hd ((flush_due_accumulate p _).mp hh)
        have hq1 : queue_sends (loop_body p xFrequency (steady_loop p xFrequency n s)) =
            queue_sends (steady_loop p xFrequency n s) := by
          rw [loop_body_queue_sends, if_neg hd]
          rfl
        have ht1 : task_creates (loop_body p xFrequency (steady_loop p xFrequency n s)) =
            task_creates (steady_loop p xFrequency n s) := by
          rw [loop_body_task_creates, if_neg (fun hh => hd2 hh.1)]
          rfl
        rw [hq1, ht1]
        refine ⟨i1, ⟨fun hh => ?_, fun hh => b2.mpr (Or.inl (i2.mpr hh))⟩, i3⟩
        rcases b2.mp hh with h1 | h1
        · exact i2.mp h1
        · exact absurd h1 hd
  obtain ⟨_, k2, k3⟩ := key
  refine ⟨k3, k2, fun u hu => ?_⟩
  obtain ⟨_, b2, _⟩ := loop_body_fields p xFrequency u
  refine ⟨b2.mpr (Or.inl hu), ?_⟩
  rw [loop_body_task_creates]
  simp [hu]

/-- C12 on the example: the loop entered after calibration has `sending_window` clear, and
after 751 iterations, in which two records are published, the transmission task has been
created once. -/
theorem C12_transmission_start_latch_witness :
    (fft_init example_config example_platform
        (State.initial example_config)).sending_window = false ∧
      queue_sends (steady_loop example_platform 10 751 (fft_init example_config
        example_platform (State.initial example_config))) = 2 ∧
      task_creates (steady_loop example_platform 10 751 (fft_init example_config
        example_platform (State.initial example_config))) = 1 := by
  obtain ⟨_, hw, hn, _, hr⟩ := example_loop_entry example_config example_platform rfl rfl rfl 0
  obtain ⟨_, _, _, _, _, _, f7, _⟩ := fft_init_steady_fields example_config example_platform
    (State.initial example_config)
  obtain ⟨htc, _⟩ := fft_init_trace_counts example_config example_platform
    (State.initial example_config)
  have hsw : (fft_init example_config example_platform
      (State.initial example_config)).sending_window = false := f7.trans rfl
  have hw2 : (fft_init example_config example_platform (State.initial example_config)).g_window_size =
      ((750 : ℕ) : ℤ) := by
    rw [hw]
    rfl
  have hq : queue_sends (fft_init example_config example_platform (State.initial example_config)) =
      0 := by
    simp [queue_sends, hr]
  obtain ⟨_, _, q3⟩ := steady_loop_counters example_platform 10 _ 750 (by norm_num) hw2 hn 750
  obtain ⟨t1, _⟩ := C12_transmission_start_latch example_platform 10 _ 751 hsw
  rw [hq] at q3
  refine ⟨hsw, q3, ?_⟩
  rw [t1, q3, hq, htc]
  rfl

/-- C13 (one-shot calibration): after `fft_init` the flag `fft_init_complete` is set; a
further call of `fft_init`, in whatever environment, returns the state unchanged (no
acquisition, same rate, window size and buffers); the steady loop and `send_anomaly_task`
never reset the flag. -/
theorem C13_one_shot_calibration (c : Config) (p p2 : Platform) (xFrequency : ℤ) (n : ℕ)
    (s : State) :
    (fft_init c p s).fft_init_complete = true ∧
      fft_init c p2 (fft_init c p s) = fft_init c p s ∧
      ∀ t : State, t.fft_init_complete = true →
        fft_init c p t = t ∧ (loop_body p xFrequency t).fft_init_complete = true ∧
          (steady_loop p xFrequency n t).fft_init_complete = true ∧
          (send_anomaly_task t).fft_init_complete = true := by
  have hdone : ∀ (q : Platform) (t : State), t.fft_init_complete = true → fft_init c q t = t := by
    intro q t ht
    simp [fft_init, ht]
  have hset : (fft_init c p s).fft_init_complete = true := by
    cases hs : s.fft_init_complete
    · simp [fft_init, hs]
    · rw [hdone p s hs]
      exact hs
  refine ⟨hset, hdone p2 _ hset, fun t ht => ⟨hdone p t ht, ?_, ?_, ?_⟩⟩
  · obtain ⟨_, _, _, _, _, b6, _⟩ := loop_body_fields p xFrequency t
    exact b6.trans ht
  · exact (steady_loop_constants p xFrequency n t).2.1.trans ht
  · exact (send_anomaly_task_fields t).2.2.2.2.trans ht


/-! ## Publishing -/

theorem anomaly_detection_fst (p : Platform) (x y z : ℚ) (s t : State) :
    (anomaly_detection p x y z s).1 = (anomaly_detection p x y z t).1 := by
  simp only [anomaly_detection]
  split_ifs <;> rfl

/-- What an iteration of the steady loop offers to the queue. -/
theorem loop_body_offered (p : Platform) (xFrequency : ℤ) (s : State) :
    offered (loop_body p xFrequency s) =
      offered s ++
        (if Int.tmod s.num_of_samples s.g_window_size = 0 then
          [(window_record p (accumulate p s), some (window_rms p (accumulate p s)))]
        else []) := by
  obtain ⟨h1, _⟩ := loop_body_fields p xFrequency s
  simp only [offered, h1]
  by_cases h : Int.tmod s.num_of_samples s.g_window_size = 0
  · cases hs : s.sending_window <;> simp [h, List.filterMap_append]
  · cases hs : s.sending_window <;> simp [h, List.filterMap_append]

/-- The accumulation extends a window of `count` samples that ends before the reading
`s.reads` by the sample made of that reading. -/
theorem accumulate_sum_sq (p : Platform) (s : State) (first count : ℕ)
    (hsum : s.session_sum_sq = sum_sq p first count) (hreads : s.reads = first + count) :
    (accumulate p s).session_sum_sq = sum_sq p first (count + 1) ∧
      (accumulate p s).reads = first + (count + 1) ∧
      (accumulate p s).g_window_size = s.g_window_size := by
  refine ⟨?_, ?_, rfl⟩
  · simp only [accumulate, read_sample, sum_sq, sample_of, hsum, hreads]
  · simp only [accumulate, read_sample, hreads]
    ring

/-- The record and the RMS vector of a flush, when the accumulator holds the window made of
the readings `first, ..., first + count - 1`. -/
theorem window_record_eq_offer (p : Platform) (s u : State) (first count : ℕ)
    (hsum : u.session_sum_sq = sum_sq p first count) (hreads : u.reads = first + count) :
    (window_record p u, some (window_rms p u)) = window_offer p s u.g_window_size first count := by
  have hr : window_rms p u = rms_of p (sum_sq p first count) u.g_window_size := by
    simp only [window_rms, rms_of, hsum]
  simp only [window_offer, window_record, hr, hreads]
  rw [anomaly_detection_fst p _ _ _ _ s]

/-- The steady loop started with count 0, sums 0 and window size `W >= 1`, seen from the
sensor readings: after `n + 1` iterations the accumulator holds the squares of the last
`n % W` samples, and the loop has offered the window of the first sample followed by the
`n / W` windows of `W` consecutive samples each. -/
theorem steady_loop_offered (p : Platform) (xFrequency : ℤ) (s : State) (W : ℕ) (hW : 0 < W)
    (hw : s.g_window_size = W) (h0 : s.num_of_samples = 0)
    (hs : s.session_sum_sq = (0, 0, 0)) (n : ℕ) :
    (steady_loop p xFrequency (n + 1) s).session_sum_sq =
        sum_sq p (s.reads + 1 + n / W * W) (n % W) ∧
      offered (steady_loop p xFrequency (n + 1) s) =
        offered s ++ window_offer p s W s.reads 1 ::
          (List.range (n / W)).map (fun j => window_offer p s W (s.reads + 1 + j * W) W) := by
  induction n with
  | zero =>
    have hacc := accumulate_sum_sq p s s.reads 0 (by rw [hs]; rfl) rfl
    have hrec := window_record_eq_offer p s (accumulate p s) s.reads 1 hacc.1 hacc.2.1
    rw [hacc.2.2, hw] at hrec
    rw [steady_loop_succ]
    constructor
    · rw [loop_body_sum_sq]
      simp [steady_loop, h0, sum_sq]
    · rw [loop_body_offered]
      simp [steady_loop, h0, hrec]
  | succ n ih =>
    obtain ⟨ihs, iho⟩ := ih
    obtain ⟨cw, cn, _⟩ := steady_loop_counters p xFrequency s W hW hw h0 n
    obtain ⟨_, _, _, _, cr⟩ := steady_loop_constants p xFrequency (n + 1) s
    have hmod : Int.tmod ((n % W + 1 : ℕ) : ℤ) (W : ℤ) = (((n % W + 1) % W : ℕ) : ℤ) := by
      rw [Int.tmod_eq_emod (Int.natCast_nonneg _) (Int.natCast_nonneg _)]
      norm_cast
    have hlt : n % W < W := Nat.mod_lt n hW
    have hdm : n / W * W + n % W = n := by
      rw [Nat.mul_comm]
      exact Nat.div_add_mod n W
    obtain ⟨hfull, hpart⟩ := succ_div_mod n W hW
    have hreads : (steady_loop p xFrequency (n + 1) s).reads =
        s.reads + 1 + n / W * W + n % W := by
      rw [cr]
      omega
    have hacc := accumulate_sum_sq p (steady_loop p xFrequency (n + 1) s)
      (s.reads + 1 + n / W * W) (n % W) ihs hreads
    rw [steady_loop_succ]
    by_cases h : n % W + 1 = W
    · obtain ⟨h1, h2⟩ := hfull h
      have hdue : Int.tmod (steady_loop p xFrequency (n + 1) s).num_of_samples
          (steady_loop p xFrequency (n + 1) s).g_window_size = 0 := by
        rw [cw, cn, hmod, h, Nat.mod_self]
        rfl
      have hrec := window_record_eq_offer p s (accumulate p (steady_loop p xFrequency (n + 1) s))
        (s.reads + 1 + n / W * W) (n % W + 1) hacc.1 hacc.2.1
      rw [hacc.2.2, cw, h] at hrec
      constructor
      · rw [loop_body_sum_sq, if_pos hdue, h1]
        rfl
      · rw [loop_body_offered, if_pos hdue, iho, hrec, h2, List.range_succ, List.map_append]
        simp
    · obtain ⟨h1, h2⟩ := hpart h
      have h3 : (n % W + 1) % W = n % W + 1 := Nat.mod_eq_of_lt (by omega)
      have hdue : Int.tmod (steady_loop p xFrequency (n + 1) s).num_of_samples
          (steady_loop p xFrequency (n + 1) s).g_window_size ≠ 0 := by
        rw [cw, cn, hmod, h3]
        norm_cast
      constructor
      · have hb := loop_body_sum_sq p xFrequency (steady_loop p xFrequency (n + 1) s)
        rw [if_neg hdue] at hb
        rw [hb, h1, h2]
        have ha := hacc.1
        simp only [accumulate, read_sample] at ha
        exact ha
      · rw [loop_body_offered, if_neg hdue, iho, h2, List.append_nil]

/-- C14 (publish per window, in order): an iteration of the steady loop hands exactly one
record to `send_data` when its flush is due and none otherwise; the record carries the
verdict of `anomaly_detection` on the RMS vector computed from the accumulated sums and
the squares of the sample just read, and what it refers to at the hand-over is that RMS
vector.  For the loop entered with count 0 and sums 0, what has been offered after `n + 1`
iterations is, in acquisition order, the window of the first sample followed by the
`n / W` windows of `W` consecutive samples each: for each window one record, with the
verdict on the RMS vector of the samples of that window and with that RMS vector behind
its pointer, none reordered, merged or skipped. -/
theorem C14_publish_per_window_in_order (p : Platform) (xFrequency : ℤ) (s : State) (W n : ℕ)
    (hW : 0 < W) (hw : s.g_window_size = W) (h0 : s.num_of_samples = 0)
    (hs : s.session_sum_sq = (0, 0, 0)) :
    (∀ (u : State) (rms : ℚ × ℚ × ℚ),
      rms = rms_of p
          (u.session_sum_sq.1 + (sample_of p u.reads).1 * (sample_of p u.reads).1,
            u.session_sum_sq.2.1 + (sample_of p u.reads).2.1 * (sample_of p u.reads).2.1,
            u.session_sum_sq.2.2 + (sample_of p u.reads).2.2 * (sample_of p u.reads).2.2)
          u.g_window_size →
      offered (loop_body p xFrequency u) =
        offered u ++
          (if Int.tmod u.num_of_samples u.g_window_size = 0 then
            [({ anomaly := (anomaly_detection p rms.1 rms.2.1 rms.2.2 u).1
                time_stamp := p.millis (u.reads + 1)
                rms_array := float_ptr.rms_array }, some rms)]
          else [])) ∧
      offered (steady_loop p xFrequency (n + 1) s) =
        offered s ++ window_offer p s W s.reads 1 ::
          (List.range (n / W)).map (fun j => window_offer p s W (s.reads + 1 + j * W) W) := by
  refine ⟨fun u rms hrms => ?_, (steady_loop_offered p xFrequency s W hW hw h0 hs n).2⟩
  rw [loop_body_offered]
  by_cases h : Int.tmod u.num_of_samples u.g_window_size = 0
  · rw [if_pos h, if_pos h]
    have hr : window_rms p (accumulate p u) = rms := by
      rw [hrms]
      simp only [window_rms, rms_of, accumulate, read_sample, sample_of]
    have hrec : window_record p (accumulate p u) =
        { anomaly := (anomaly_detection p rms.1 rms.2.1 rms.2.2 u).1
          time_stamp := p.millis (u.reads + 1)
          rms_array := float_ptr.rms_array } := by
      simp only [window_record, hr]
      rw [anomaly_detection_fst p _ _ _ _ u]
      simp [accumulate, read_sample]
    rw [hr, hrec]
  · rw [if_neg h, if_neg h]

/-- C14 on the example: the loop entered after calibration has count 0, sums 0 and window
size 750; after 751 iterations it has offered the window of its first sample and the
window of the 750 samples that follow, in this order. -/
theorem C14_publish_per_window_in_order_witness :
    (fft_init example_config example_platform (State.initial example_config)).g_window_size =
        ((750 : ℕ) : ℤ) ∧
      (fft_init example_config example_platform (State.initial example_config)).num_of_samples =
        0 ∧
      (fft_init example_config example_platform (State.initial example_config)).session_sum_sq =
        (0, 0, 0) ∧
      offered (steady_loop example_platform 10 751
          (fft_init example_config example_platform (State.initial example_config))) =
        [window_offer example_platform
            (fft_init example_config example_platform (State.initial example_config)) 750
            (fft_init example_config example_platform (State.initial example_config)).reads 1,
          window_offer example_platform
            (fft_init example_config example_platform (State.initial example_config)) 750
            ((fft_init example_config example_platform (State.initial example_config)).reads + 1)
            750] := by
  obtain ⟨_, hw, hn, hs, hr⟩ := example_loop_entry example_config example_platform rfl rfl rfl 0
  have hw2 : (fft_init example_config example_platform (State.initial example_config)).g_window_size =
      ((750 : ℕ) : ℤ) := by
    rw [hw]
    rfl
  obtain ⟨_, h⟩ := C14_publish_per_window_in_order example_platform 10
    (fft_init example_config example_platform (State.initial example_config)) 750 750
    (by norm_num) hw2 hn hs
  refine ⟨hw2, hn, hs, ?_⟩
  rw [h, (sent_rms_eq_nil _ hr).2]
  simp [List.range_succ]

theorem window_record_alarm (u : State) : (window_record alarm_platform u).anomaly = true := by
  simp [window_record, anomaly_detection, alarm_platform, EI_IMPULSE_OK]
  norm_num

theorem published_records_alarm (xFrequency : ℤ) (n : ℕ) (s : State) :
    ∀ r ∈ published_records alarm_platform xFrequency n s, r.anomaly = true := by
  intro r hr
  simp only [published_records, List.mem_filterMap] at hr
  obtain ⟨i, _, hi⟩ := hr
  split_ifs at hi
  · simp only [Option.some.injEq] at hi
    rw [← hi]
    exact window_record_alarm _

/-- The bound of one delivery is attained: on the example with a classifier that reports
every window as anomalous, two iterations of the loop interleaved with two runs of
`send_anomaly_task` deliver the anomaly record exactly once. -/
theorem anomaly_delivery_example :
    anomaly_deliveries alarm_platform 10
      [Activation.loop_iteration, Activation.anomaly_task, Activation.loop_iteration,
        Activation.anomaly_task]
      (fft_init short_session_config alarm_platform (State.initial short_session_config)) = 1 := by
  obtain ⟨_, _, hn, _, _⟩ :=
    example_loop_entry short_session_config alarm_platform rfl rfl rfl 1
  obtain ⟨_, f2, _⟩ := fft_init_steady_fields short_session_config alarm_platform
    (State.initial short_session_config)
  generalize fft_init short_session_config alarm_platform
    (State.initial short_session_config) = s0 at hn f2
  obtain ⟨_, _, b3, _, b5, _⟩ := loop_body_fields alarm_platform 10 s0
  have hdet : (loop_body alarm_platform 10 s0).anomaly_detected = true :=
    b3.mpr (Or.inr ⟨by rw [hn]; simp, window_record_alarm _⟩)
  have hsent : (loop_body alarm_platform 10 s0).anomaly_sent = false := b5.trans (f2.trans rfl)
  obtain ⟨c1, c2, _⟩ := send_anomaly_task_fields (loop_body alarm_platform 10 s0)
  obtain ⟨_, hrest⟩ := anomaly_sent_latched alarm_platform 10
    [Activation.loop_iteration, Activation.anomaly_task]
    (send_anomaly_task (loop_body alarm_platform 10 s0)) (c2.mpr (Or.inr hdet))
  simp only [anomaly_deliveries] at hrest ⊢
  rw [hrest]
  simp [queue_sends, c1, hdet, hsent]

theorem offered_snd (s : State) : (offered s).map Prod.snd = sent_rms s := by
  simp only [offered, sent_rms]
  generalize s.trace = l
  induction l with
  | nil => rfl
  | cons e l ih => cases e <;> simp_all [List.filterMap_cons]

/-- The waits of the steady loop started with count 0: the first iteration flushes, so
every iteration ends with the periodic delay of interval `xFrequency` and none with the
power-saving sleep. -/
theorem steady_loop_waits (p : Platform) (xFrequency : ℤ) (s : State)
    (h0 : s.num_of_samples = 0) (n : ℕ) :
    (0 < n → (steady_loop p xFrequency n s).sending_window = true) ∧
      delay_intervals (steady_loop p xFrequency n s) =
        delay_intervals s ++ List.replicate n xFrequency ∧
      light_sleeps (steady_loop p xFrequency n s) = light_sleeps s := by
  induction n with
  | zero => simp [steady_loop]
  | succ n ih =>
    obtain ⟨i1, i2, i3⟩ := ih
    obtain ⟨_, b2, _⟩ := loop_body_fields p xFrequency (steady_loop p xFrequency n s)
    have hmode : (steady_loop p xFrequency n s).sending_window = true ∨
        flush_due (accumulate p (steady_loop p xFrequency n s)) := by
      rcases Nat.eq_zero_or_pos n with hn | hn
      · right
        rw [flush_due_accumulate, hn]
        simp [steady_loop, h0]
      · exact Or.inl (i1 hn)
    rw [steady_loop_succ, loop_body_delay_intervals, loop_body_light_sleeps, if_pos hmode,
      if_pos hmode, i2, i3, List.replicate_succ', List.append_assoc]
    refine ⟨fun _ => b2.mpr ?_, rfl, rfl⟩
    rcases hmode with h | h
    · exact Or.inl h
    · exact Or.inr ((flush_due_accumulate p _).mp h)


/-- C16 (configured inter-sample wait) evaluated on the example, the task calibrating
itself: the calibrated rate is 25 Hz, whose inter-sample interval is `1000 / 25 = 40` ms,
yet each of the first three iterations of the loop waits with the periodic delay of
interval 10, the ticks of `1000 / 100` ms computed from the rate on entry of the task. -/
theorem C16_wait_interval_after_own_calibration :
    (State.initial example_config).fft_init_complete = false ∧
      (fft_sampling_task example_config example_platform 3
        (State.initial example_config)).g_sampling_frequency = 25 ∧
      Int.tdiv 1000 25 = 40 ∧
      example_platform.pdMS_TO_TICKS 40 = 40 ∧
      delay_intervals (fft_sampling_task example_config example_platform 3
        (State.initial example_config)) = [10, 10, 10] := by
  obtain ⟨hrun, _, hn, _, _⟩ :=
    example_loop_entry example_config example_platform rfl rfl rfl 3
  obtain ⟨_, hrate, _⟩ := example_calibration example_config example_platform
    (State.initial example_config) rfl rfl rfl rfl
  obtain ⟨_, hdel⟩ := fft_init_trace_counts example_config example_platform
    (State.initial example_config)
  have hx : example_platform.pdMS_TO_TICKS
      (Int.tdiv 1000 (State.initial example_config).g_sampling_frequency) = 10 := by decide
  rw [hx] at hrun
  obtain ⟨_, w2, _⟩ := steady_loop_waits example_platform 10 _ hn 3
  obtain ⟨_, _, c3, _⟩ := steady_loop_constants example_platform 10 3
    (fft_init example_config example_platform (State.initial example_config))
  refine ⟨rfl, ?_, by decide, rfl, ?_⟩
  · rw [hrun, c3, hrate]
  · rw [hrun, w2, hdel]
    rfl

/-! ## Feature read -/

/-- In range, the array read is the element of the feature vector. -/
theorem features_at_in_range (features : ℚ × ℚ × ℚ) (beyond : ℕ → ℚ) (k : ℕ) (hk : k < 3) :
    some (features_at features beyond k) = [features.1, features.2.1, features.2.2][k]? := by
  match k, hk with
  | 0, _ => rfl
  | 1, _ => rfl
  | 2, _ => rfl

theorem copy_loop (g : ℕ → ℚ) (out_ptr : ℕ → ℚ) (n : ℕ) :
    (List.range n).foldl (fun out i => Function.update out i (g i)) out_ptr =
      fun i => if i < n then g i else out_ptr i := by
  induction n with
  | zero => simp
  | succ n ih =>
    rw [List.range_succ, List.foldl_append, ih]
    funext i
    simp only [List.foldl_cons, List.foldl_nil, Function.update_apply]
    by_cases h : i = n
    · simp [h]
    · rw [if_neg h]
      by_cases h2 : i < n
      · rw [if_pos h2, if_pos (by omega)]
      · rw [if_neg h2, if_neg (by omega)]

/-- C17, as stated, fails: a request for two elements from offset 2 reaches beyond the
three-element feature vector, and the call returns 0, the status of success. -/
theorem C17_bounded_feature_read_counterexample :
    3 < 2 + 2 ∧
      (raw_feature_get_data (State.initial example_config) (fun _ => 0) 2 2 (fun _ => 0)).1 = 0 :=
  ⟨by decide, rfl⟩

/-- C17 (feature read, amended): `raw_feature_get_data` has no range check and returns 0
for every request; for every request with `offset + length <= 3` it copies exactly
`features[offset .. offset+length)` to the first `length` cells of the output and leaves
the other cells untouched. -/
theorem C17_bounded_feature_read (s : State) (beyond : ℕ → ℚ) (offset length : ℕ)
    (out_ptr : ℕ → ℚ) :
    (raw_feature_get_data s beyond offset length out_ptr).1 = 0 ∧
      (offset + length ≤ 3 → ∀ i : ℕ,
        (i < length →
          some ((raw_feature_get_data s beyond offset length out_ptr).2 i) =
            [s.features.1, s.features.2.1, s.features.2.2][offset + i]?) ∧
        (length ≤ i → (raw_feature_get_data s beyond offset length out_ptr).2 i = out_ptr i)) := by
  refine ⟨rfl, fun h i => ?_⟩
  simp only [raw_feature_get_data]
  rw [copy_loop (fun i => features_at s.features beyond (offset + i))]
  constructor
  · intro hi
    simp only [hi, if_true]
    exact features_at_in_range _ _ _ (by omega)
  · intro hi
    simp only [if_neg (show ¬ i < length by omega)]

/-! ## Division safety and suspension mode -/

/-- C18 (division safety): with `INIT_SAMPLE_RATE >= 2` and `SESSION_DURATION_SEC >= 1`,
for every `max_freq` the rate stored by `fft_adjust_sampling_rate` lies in
`[1, INIT_SAMPLE_RATE]`; after a calibration run of `fft_init` the rate and the window size
are at least 1, and they are still non-zero after any number of iterations of the steady
loop, so `1000 / g_sampling_frequency` and `num_of_samples % g_window_size` never divide
by zero. -/
theorem C18_division_safety (c : Config) (p : Platform) (xFrequency : ℤ) (n : ℕ)
    (max_freq : ℚ) (s : State) (hN : 2 ≤ c.INIT_SAMPLE_RATE)
    (hS : 1 ≤ c.SESSION_DURATION_SEC) :
    (1 ≤ (fft_adjust_sampling_rate c max_freq s).g_sampling_frequency ∧
        (fft_adjust_sampling_rate c max_freq s).g_sampling_frequency ≤ c.INIT_SAMPLE_RATE) ∧
      (s.fft_init_complete = false →
        1 ≤ (fft_init c p s).g_sampling_frequency ∧ 1 ≤ (fft_init c p s).g_window_size ∧
          (steady_loop p xFrequency n (fft_init c p s)).g_sampling_frequency ≠ 0 ∧
          (steady_loop p xFrequency n (fft_init c p s)).g_window_size ≠ 0) := by
  have hhalf : Int.tdiv (c.INIT_SAMPLE_RATE : ℤ) 2 = ((c.INIT_SAMPLE_RATE / 2 : ℕ) : ℤ) := by
    rw [Int.tdiv_eq_ediv (Int.natCast_nonneg _) (by norm_num)]
    norm_cast
  have hadj : ∀ (m : ℚ) (t : State),
      1 ≤ (fft_adjust_sampling_rate c m t).g_sampling_frequency ∧
        (fft_adjust_sampling_rate c m t).g_sampling_frequency ≤ c.INIT_SAMPLE_RATE := by
    intro m t
    simp only [fft_adjust_sampling_rate, hhalf]
    split_ifs <;> omega
  refine ⟨hadj max_freq s, fun hs => ?_⟩
  obtain ⟨h1, h2⟩ := fft_init_of_incomplete c p s hs
  have hg : 1 ≤ (fft_init c p s).g_sampling_frequency := by
    rw [h1]
    exact (hadj _ _).1
  have hw : 1 ≤ (fft_init c p s).g_window_size := by
    rw [h2]
    exact one_le_mul_of_one_le_of_one_le hg hS
  obtain ⟨_, _, c3, c4, _⟩ := steady_loop_constants p xFrequency n (fft_init c p s)
  refine ⟨hg, hw, ?_, ?_⟩
  · rw [c3]
    omega
  · rw [c4]
    omega

/-- C18 on the example: 100 Hz and 30 s satisfy the assumptions; after calibration and 750
iterations the rate and the window size are non-zero. -/
theorem C18_division_safety_witness :
    2 ≤ example_config.INIT_SAMPLE_RATE ∧ 1 ≤ example_config.SESSION_DURATION_SEC ∧
      (steady_loop example_platform 10 750 (fft_init example_config example_platform
        (State.initial example_config))).g_sampling_frequency ≠ 0 ∧
      (steady_loop example_platform 10 750 (fft_init example_config example_platform
        (State.initial example_config))).g_window_size ≠ 0 := by
  have h := (C18_division_safety example_config example_platform 10 750 10
    (State.initial example_config) (by decide) (by decide)).2 rfl
  exact ⟨by decide, by decide, h.2.2.1, h.2.2.2⟩

/-- C19 (suspension mode actually used): started with `num_of_samples == 0` and
`g_window_size >= 1`, the first iteration of the steady loop publishes a record and sets
`sending_window`; `sending_window` is set after every iteration, every one of the first
`n` iterations waits with the precise periodic delay, and none takes the power-saving
sleep. -/
theorem C19_suspension_mode (p : Platform) (xFrequency : ℤ) (s : State) (n : ℕ)
    (h0 : s.num_of_samples = 0) (hW : 1 ≤ s.g_window_size) :
    queue_sends (steady_loop p xFrequency 1 s) = queue_sends s + 1 ∧
      (steady_loop p xFrequency (n + 1) s).sending_window = true ∧
      delay_intervals (steady_loop p xFrequency n s) =
        delay_intervals s ++ List.replicate n xFrequency ∧
      light_sleeps (steady_loop p xFrequency n s) = light_sleeps s := by
  have _ := hW
  obtain ⟨_, w2, w3⟩ := steady_loop_waits p xFrequency s h0 n
  obtain ⟨w1, _⟩ := steady_loop_waits p xFrequency s h0 (n + 1)
  refine ⟨?_, w1 (Nat.succ_pos n), w2, w3⟩
  have h1 : steady_loop p xFrequency 1 s = loop_body p xFrequency s := rfl
  rw [h1, loop_body_queue_sends, h0]
  simp

/-- C19 on the example: the loop entered after calibration has count 0 and window size
750, and its first 751 iterations take 751 periodic delays and no power-saving sleep
beyond those of the calibration. -/
theorem C19_suspension_mode_witness :
    (fft_init example_config example_platform (State.initial example_config)).num_of_samples = 0 ∧
      1 ≤ (fft_init example_config example_platform
        (State.initial example_config)).g_window_size ∧
      delay_intervals (steady_loop example_platform 10 751 (fft_init example_config
        example_platform (State.initial example_config))) = List.replicate 751 10 ∧
      light_sleeps (steady_loop example_platform 10 751 (fft_init example_config
        example_platform (State.initial example_config))) =
        light_sleeps (fft_init example_config example_platform (State.initial example_config)) := by
  obtain ⟨_, hw, hn, _, _⟩ := example_loop_entry example_config example_platform rfl rfl rfl 0
  obtain ⟨_, hdel⟩ := fft_init_trace_counts example_config example_platform
    (State.initial example_config)
  have hw1 : 1 ≤ (fft_init example_config example_platform
      (State.initial example_config)).g_window_size := by
    rw [hw]
    decide
  obtain ⟨_, _, d, l⟩ := C19_suspension_mode example_platform 10 _ 751 hn hw1
  refine ⟨hn, hw1, ?_, l⟩
  rw [d, hdel]
  rfl

end FanGuard
